import Mathlib

/-!
Verification of the ZFS Intent Log (ZIL) commit pipeline specification
against the implementation in module/zfs/zil.c.

The development shallowly embeds the data model and the operations of
zil.c that the checked properties concern: the on-disk chain parser
(zil_parse), claim stamping (zil_claim), the itx store (zil_itx_create,
zil_itx_assign, zil_clean), the lwb packing and filling pipeline
(zil_alloc_lwb, zil_lwb_assign, zil_lwb_commit, zil_lwb_write_issue),
the sizing predictor (zil_lwb_plan, zil_lwb_predict), and the completion
callbacks (zil_lwb_write_done, zil_lwb_flush_vdevs_done).

Machine integers are modelled as Nat; the source's uint64 arithmetic
never over- or underflows on the paths embedded here (noted inline where
it matters).  Byte buffers are modelled at the level the checked
properties need: a log block's payload is modelled as the sequence of
records it carries, with the byte window of the C code recovered from
the records' reclen fields.
-/

/-! ## Constants

Constants below that come from headers that are not part of the sources
under verification (zil.h, zil_impl.h, txg.h, spa.h) are modelled from
the specification; their exact numeric values are irrelevant to every
theorem except where noted.
-/

def UINT64_MAX : Nat := 2 ^ 64 - 1

def UINT_MAX : Nat := 2 ^ 32 - 1

/-- Modelled from the spec: ring of TXG_SIZE itx groups keyed by txg mod TXG_SIZE. -/
def TXG_SIZE : Nat := 4

def TXG_MASK : Nat := TXG_SIZE - 1

/-- Modelled from the spec: TXG_CONCURRENT_STATES consecutive slots are scanned. -/
def TXG_CONCURRENT_STATES : Nat := 3

/-- Modelled from the spec: the special txg used for itx bucketing when the
pool is frozen (ziltest support).  Defined in a header not under src/; the
theorems only use that it is one fixed, very large value. -/
def ZILTEST_TXG : Nat := 2 ^ 63

/-- Modelled from the spec: minimum ZIL block size / allocation granularity. -/
def ZIL_MIN_BLKSZ : Nat := 4096

/-- Modelled from the spec: number of slots of burst history kept by the
sizing predictor. -/
def ZIL_BURSTS : Nat := 8

/-- Modelled from the spec: size in bytes of the common log record header
lr_t (four 64-bit fields). -/
def sizeof_lr_t : Nat := 32

/-- Modelled from the spec: size in bytes of a TX_WRITE record header
lr_write_t. -/
def sizeof_lr_write_t : Nat := 192

/-- Modelled from the spec: size in bytes of the log block trailer
zil_chain_t. -/
def sizeof_zil_chain_t : Nat := 184

/-- Modelled from the spec: TX_RENAME transaction type tag. -/
def TX_RENAME : Nat := 8

/-- Modelled from the spec: TX_WRITE transaction type tag. -/
def TX_WRITE : Nat := 9

/-- Modelled from the spec: the TX_COMMIT place-holder transaction type; a
distinguished tag that never reaches the on-disk log. -/
def TX_COMMIT : Nat := 26

/-- Modelled from the spec: the case-insensitive bit ORed into txtypes. -/
def TX_CI : Nat := 2 ^ 63

/-- Modelled from the spec: zil header flag, replay needed. -/
def ZIL_REPLAY_NEEDED : Nat := 1

/-- Modelled from the spec: zil header flag, zh_claim_lr_seq field is valid. -/
def ZIL_CLAIM_LR_SEQ_VALID : Nat := 2

/-- Error number EIO. -/
def EIO_err : Nat := 5

/-- Error number ENOENT. -/
def ENOENT_err : Nat := 2

/-- Error number EEXIST. -/
def EEXIST_err : Nat := 17

/-- Error number EALREADY. -/
def EALREADY_err : Nat := 114

/-- Error number ECKSUM (the chain-end indicator). -/
def ECKSUM_err : Nat := 52

/-- The P2ROUNDUP macro: round x up to the next multiple of the
power-of-two align. -/
def P2ROUNDUP (x align : Nat) : Nat := (x + align - 1) / align * align

/-- The DIV_ROUND_UP macro. -/
def DIV_ROUND_UP (x y : Nat) : Nat := (x + y - 1) / y

/-! ## Itx creation (zil_itx_create)

The allocated record region is modelled as a byte function: index i holds
the i-th byte of the region of lrc_reclen bytes that starts at itx_lr.
The named header fields (txtype, reclen, seq) are modelled separately;
the allocation's initial contents (zio_data_buf_alloc returns
uninitialized memory) are an arbitrary parameter mem. -/

structure ItxCreated where
  lrc_txtype : Nat
  lrc_reclen : Nat
  lrc_seq : Nat
  body : Nat → Nat

/-- zil_itx_create, zil.c lines 2432-2454: round olrsize up to 8 bytes,
set the header fields, and zero exactly the pad bytes from olrsize up to
the rounded size. -/
def zil_itx_create (txtype olrsize : Nat) (mem : Nat → Nat) : ItxCreated :=
  let lrsize := P2ROUNDUP olrsize 8
  { lrc_txtype := txtype
    lrc_reclen := lrsize
    lrc_seq := 0
    body := fun i => if olrsize ≤ i ∧ i < lrsize then 0 else mem i }

/-! ## The itx store ring (zil_itx_assign, zil_clean)

An itx as stored in the per-txg ring.  lr_foid is the leading object id
field shared by all record bodies (lr_ooo_t), used for async bucketing;
itx_oid is the object id an itx operates on (used by the TX_RENAME
async-to-sync pass). -/

structure Itx where
  lrc_txtype : Nat
  lrc_reclen : Nat
  lrc_txg : Nat
  lrc_seq : Nat
  itx_sync : Bool
  itx_oid : Nat
  lr_foid : Nat
deriving DecidableEq

/-- Modelled from the spec: LR_FOID_GET_OBJ extracts the object number
bits of the lr_foid field (low 48 bits). -/
def LR_FOID_GET_OBJ (foid : Nat) : Nat := foid % 2 ^ 48

/-- The per-txg itx container: the sync list and the async tree (an AVL
tree keyed by object id in the source, modelled as an association list;
the tree order is irrelevant to the checked properties). -/
structure Itxs where
  i_sync_list : List Itx
  i_async_tree : List (Nat × List Itx)
deriving DecidableEq

/-- One slot of the per-txg ring. -/
structure Itxg where
  itxg_txg : Nat
  itxg_itxs : Option Itxs
deriving DecidableEq

/-- Find the async node with the given object id (avl_find). -/
def treeFind (t : List (Nat × List Itx)) (foid : Nat) : Option (List Itx) :=
  match t.find? (fun p => p.1 == foid) with
  | some p => some p.2
  | none => none

/-- Replace the list held by the async node with the given object id. -/
def treeSet (t : List (Nat × List Itx)) (foid : Nat) (l : List Itx) :
    List (Nat × List Itx) :=
  t.map (fun p => if p.1 == foid then (p.1, l) else p)

/-- Append an itx to the async node keyed by foid, creating the node if
absent (zil_itx_assign, zil.c lines 2644-2661). -/
def treeInsertItx (t : List (Nat × List Itx)) (foid : Nat) (x : Itx) :
    List (Nat × List Itx) :=
  match treeFind t foid with
  | some l => treeSet t foid (l ++ [x])
  | none => t ++ [(foid, [x])]

/-- The zilog state visible to the itx-store operations.  zl_dirty models
the set of txgs zilog_dirty has been called with (most recent first);
spa_frozen models spa_freeze_txg(spa) being set. -/
structure ZilogItxState where
  zl_itxg : List Itxg
  zl_dirty : List Nat
  spa_frozen : Bool
  spa_last_synced_txg : Nat
deriving DecidableEq

/-- Move the async itxs of one slot for object foid (or all objects when
foid = 0) onto the slot's sync list (zil_async_to_sync body,
zil.c lines 2818-2841). -/
def itxsMoveAsync (itxs : Itxs) (foid : Nat) : Itxs :=
  if foid ≠ 0 then
    match treeFind itxs.i_async_tree foid with
    | some l =>
        { i_sync_list := itxs.i_sync_list ++ l
          i_async_tree := treeSet itxs.i_async_tree foid [] }
    | none => itxs
  else
    { i_sync_list :=
        itxs.i_sync_list ++ itxs.i_async_tree.foldr (fun p a => p.2 ++ a) []
      i_async_tree := [] }

/-- One iteration of the zil_async_to_sync loop for a given txg. -/
def asyncToSyncSlot (st : ZilogItxState) (foid txg : Nat) : ZilogItxState :=
  let idx := txg &&& TXG_MASK
  let slot := st.zl_itxg.getD idx ⟨0, none⟩
  if slot.itxg_txg = txg then
    match slot.itxg_itxs with
    | some itxs =>
        { st with zl_itxg := st.zl_itxg.set idx ⟨txg, some (itxsMoveAsync itxs foid)⟩ }
    | none => st
  else st

/-- zil_async_to_sync, zil.c lines 2792-2844: walk TXG_CONCURRENT_STATES
slots starting at otxg, moving the async itxs for foid to each slot's
sync list. -/
def zil_async_to_sync (st : ZilogItxState) (foid : Nat) : ZilogItxState :=
  let otxg := if st.spa_frozen then ZILTEST_TXG else st.spa_last_synced_txg + 1
  (List.range TXG_CONCURRENT_STATES).foldl
    (fun s i => asyncToSyncSlot s foid (otxg + i)) st

/-- Clear the case-insensitive bit of a txtype (lrc_txtype with TX_CI
masked off; txtypes are 64-bit). -/
def txtypeNoCI (t : Nat) : Nat := t % TX_CI

/-- Result of zil_itx_assign: the new state and the resolved bucketing
txg. -/
structure AssignOut where
  st : ZilogItxState
  resolved : Nat
deriving DecidableEq

/-- The body of zil_itx_assign past the TX_RENAME pass, zil.c lines
2613-2676: resolve the bucketing txg (ZILTEST_TXG when the pool is
frozen, else the tx's txg), re-initialize the slot if its txg differs
(its old itxs go to cleanup), append the itx to the sync list or to its
object's async node, store the tx's txg in the itx's lrc_txg field, and
dirty the zilog in the tx's txg.  The C code inserts the itx into its
list and only afterwards stores dmu_tx_get_txg(tx) into the itx's
lrc_txg field; because both refer to the same object, the stored itx
carries the updated field, which the model reflects by inserting the
updated copy. -/
def zil_itx_assign_enqueue (st : ZilogItxState) (itx : Itx) (tx_txg : Nat) : AssignOut :=
  let txg := if st.spa_frozen then ZILTEST_TXG else tx_txg
  let idx := txg &&& TXG_MASK
  let slot := st.zl_itxg.getD idx ⟨0, none⟩
  let itxs :=
    if slot.itxg_txg ≠ txg then (⟨[], []⟩ : Itxs)
    else slot.itxg_itxs.getD ⟨[], []⟩
  let itx' := { itx with lrc_txg := tx_txg }
  let itxs' :=
    if itx.itx_sync then { itxs with i_sync_list := itxs.i_sync_list ++ [itx'] }
    else { itxs with
           i_async_tree := treeInsertItx itxs.i_async_tree (LR_FOID_GET_OBJ itx.lr_foid) itx' }
  { st := { st with
            zl_itxg := st.zl_itxg.set idx ⟨txg, some itxs'⟩
            zl_dirty := tx_txg :: st.zl_dirty }
    resolved := txg }

/-- zil_itx_assign, zil.c lines 2600-2677: for a TX_RENAME (with the
case-insensitive bit masked off) first move the renamed object's async
itxs to the sync lists, then enqueue. -/
def zil_itx_assign (st0 : ZilogItxState) (itx : Itx) (tx_txg : Nat) : AssignOut :=
  if txtypeNoCI itx.lrc_txtype = TX_RENAME then
    zil_itx_assign_enqueue (zil_async_to_sync st0 itx.itx_oid) itx tx_txg
  else zil_itx_assign_enqueue st0 itx tx_txg

/-- zil_clean, zil.c lines 2686-2717: if the slot holds itxs and is not
the frozen-pool slot, atomically detach them (the detached itxs are freed
on a task queue, or inline if dispatch fails; either way they leave the
ring).  Returns the new ring and the detached container. -/
def zil_clean (ring : List Itxg) (synced_txg : Nat) : List Itxg × Option Itxs :=
  if (ring.getD (synced_txg &&& TXG_MASK) ⟨0, none⟩).itxg_itxs = none ∨
      (ring.getD (synced_txg &&& TXG_MASK) ⟨0, none⟩).itxg_txg = ZILTEST_TXG then
    (ring, none)
  else
    (ring.set (synced_txg &&& TXG_MASK) ⟨0, none⟩,
      (ring.getD (synced_txg &&& TXG_MASK) ⟨0, none⟩).itxg_itxs)

/-! ## The on-disk chain parser (zil_parse)

A log record as seen by the parser.  A log block is modelled by the
sequence number carried in its block pointer's checksum, the outcome of
zil_read_log_block for it, and the sequence of records its payload
carries; the C byte window from lrp to end corresponds to the total
remaining record bytes, each record occupying exactly its lrc_reclen
bytes (lrc_reclen is inclusive of the body).  The chain hanging off a
block pointer is a list whose entries are none for a hole block pointer
(BP_IS_HOLE) and some block otherwise; the walk never looks past the
first hole. -/

structure LogRecord where
  lrc_txtype : Nat
  lrc_reclen : Nat
  lrc_txg : Nat
  lrc_seq : Nat
deriving DecidableEq

structure LogBlock where
  blk_seq : Nat
  read_error : Nat
  records : List LogRecord
deriving DecidableEq

/-- Total serialized size of a record sequence. -/
def sumReclens (rs : List LogRecord) : Nat :=
  rs.foldr (fun r a => r.lrc_reclen + a) 0

/-- Result of the in-block record loop of zil_parse.  stop records that
the loop left via its error paths or the claimed-sequence check, which in
the C code is a goto past the block loop (parse ends). -/
structure RecWalk where
  stop : Bool
  error : Nat
  max_lr_seq : Nat
  lr_count : Nat
  dispatched : List LogRecord
deriving DecidableEq

/-- The record loop of zil_parse, zil.c lines 529-564: for each record,
check that a record header fits in the remaining bytes, that its reclen
is at least sizeof lr_t and within the remaining bytes, stop (ending the
whole parse, with success) on a record sequence number above the claimed
maximum, call the record visitor (stopping on error), and advance by
reclen. -/
def zil_parse_records (parse_lr : LogRecord → Nat) (claim_lr_seq : Nat) :
    Nat → Nat → List LogRecord → RecWalk
  | ml, cnt, [] => ⟨false, 0, ml, cnt, []⟩
  | ml, cnt, r :: rest =>
      let rem := r.lrc_reclen + sumReclens rest
      if rem < sizeof_lr_t then ⟨true, ECKSUM_err, ml, cnt, []⟩
      else if r.lrc_reclen < sizeof_lr_t ∨ rem < r.lrc_reclen then
        ⟨true, ECKSUM_err, ml, cnt, []⟩
      else if claim_lr_seq < r.lrc_seq then ⟨true, 0, ml, cnt, []⟩
      else
        let e := parse_lr r
        if e ≠ 0 then ⟨true, e, ml, cnt, []⟩
        else
          let w := zil_parse_records parse_lr claim_lr_seq r.lrc_seq (cnt + 1) rest
          { w with dispatched := r :: w.dispatched }

/-- Result of the block loop of zil_parse: final error, running maxima
and counts, the blocks passed to the block visitor in order, and the
records passed to the record visitor in order. -/
structure BlkWalk where
  error : Nat
  max_blk_seq : Nat
  max_lr_seq : Nat
  blk_count : Nat
  lr_count : Nat
  visited : List LogBlock
  dispatched : List LogRecord
deriving DecidableEq

/-- The block loop of zil_parse, zil.c lines 493-566: stop at a hole
block pointer or one whose sequence number exceeds the claimed maximum;
call the block visitor (stopping on error); stop once both claimed
maxima have been reached; read the block (stopping on read error); then
run the record loop, whose stop flag ends the walk. -/
def zil_parse_blocks (parse_blk : LogBlock → Nat) (parse_lr : LogRecord → Nat)
    (claim_blk_seq claim_lr_seq : Nat) :
    Nat → Nat → Nat → Nat → List (Option LogBlock) → BlkWalk
  | mb, ml, bcnt, lcnt, [] => ⟨0, mb, ml, bcnt, lcnt, [], []⟩
  | mb, ml, bcnt, lcnt, none :: _ => ⟨0, mb, ml, bcnt, lcnt, [], []⟩
  | mb, ml, bcnt, lcnt, some b :: rest =>
      if claim_blk_seq < b.blk_seq then ⟨0, mb, ml, bcnt, lcnt, [], []⟩
      else
        let e := parse_blk b
        if e ≠ 0 then ⟨e, mb, ml, bcnt, lcnt, [], []⟩
        else
          let mb' := b.blk_seq
          let bcnt' := bcnt + 1
          if ml = claim_lr_seq ∧ mb' = claim_blk_seq then
            ⟨0, mb', ml, bcnt', lcnt, [b], []⟩
          else if b.read_error ≠ 0 then ⟨b.read_error, mb', ml, bcnt', lcnt, [b], []⟩
          else
            let w := zil_parse_records parse_lr claim_lr_seq ml lcnt b.records
            if w.stop then ⟨w.error, mb', w.max_lr_seq, bcnt', w.lr_count, [b], w.dispatched⟩
            else
              let z := zil_parse_blocks parse_blk parse_lr claim_blk_seq claim_lr_seq
                mb' w.max_lr_seq bcnt' w.lr_count rest
              { z with visited := b :: z.visited, dispatched := w.dispatched ++ z.dispatched }

/-- The ZIL header fields the parser and claim read and write, together
with the chain hanging off zh_log. -/
structure ZilHeader where
  zh_claim_txg : Nat
  zh_claim_blk_seq : Nat
  zh_claim_lr_seq : Nat
  zh_flags : Nat
  zh_log : List (Option LogBlock)
deriving DecidableEq

/-- The claimed block-sequence bound of zil_parse, zil.c line 467. -/
def zilParseClaimBlkSeq (zh : ZilHeader) : Nat :=
  if zh.zh_claim_txg ≠ 0 then zh.zh_claim_blk_seq else UINT64_MAX

/-- The claimed record-sequence bound of zil_parse, zil.c lines 468 and
479-480: old logs without ZIL_CLAIM_LR_SEQ_VALID did not record it. -/
def zilParseClaimLrSeq (zh : ZilHeader) : Nat :=
  if zh.zh_claim_txg ≠ 0 ∧ zh.zh_flags &&& ZIL_CLAIM_LR_SEQ_VALID ≠ 0 then
    zh.zh_claim_lr_seq
  else UINT64_MAX

/-- zil_parse, zil.c lines 460-577, with the two visitor callbacks
abstracted by their returned error codes (their external effects such as
zio_claim and zio_free are outside the embedded core). -/
def zil_parse (zh : ZilHeader) (parse_blk : LogBlock → Nat)
    (parse_lr : LogRecord → Nat) : BlkWalk :=
  zil_parse_blocks parse_blk parse_lr (zilParseClaimBlkSeq zh) (zilParseClaimLrSeq zh)
    0 0 0 0 zh.zh_log

/-- Whether zh_log is a hole block pointer (BP_IS_HOLE on the chain head). -/
def chainHeadHole : List (Option LogBlock) → Bool
  | some _ :: _ => false
  | _ => true

/-- zil_claim, the claiming branch, zil.c lines 1219-1232: when the
header is unclaimed and the chain head is not a hole, parse with the
claim visitors, then stamp claim_txg, the parsed maxima, the
CLAIM_LR_SEQ_VALID flag, and, when the parse counted a record or more
than one block, the REPLAY_NEEDED flag.  The parse's return value is
discarded by the source ((void) zil_parse). -/
def zil_claim (zh : ZilHeader) (parse_blk : LogBlock → Nat)
    (parse_lr : LogRecord → Nat) (first_txg : Nat) : ZilHeader :=
  if zh.zh_claim_txg = 0 ∧ chainHeadHole zh.zh_log = false then
    let r := zil_parse zh parse_blk parse_lr
    { zh with
      zh_claim_txg := first_txg
      zh_claim_blk_seq := r.max_blk_seq
      zh_claim_lr_seq := r.max_lr_seq
      zh_flags :=
        (if r.lr_count ≠ 0 ∨ 1 < r.blk_count then zh.zh_flags ||| ZIL_REPLAY_NEEDED
         else zh.zh_flags) ||| ZIL_CLAIM_LR_SEQ_VALID }
  else zh

/-! ## Well-formed chains

Decidable side conditions under which the parser's visit order is
characterized exactly.  These hold of any chain the writer produced:
reads succeed, every record header is at least sizeof lr_t, block
sequence numbers strictly increase along the chain (the checksum seed of
block N+1 is block N's with the sequence incremented), and record
sequence numbers strictly increase and stay within the claimed maximum. -/

/-- Every non-hole entry of the chain reads back without error. -/
def chainReadsOk : List (Option LogBlock) → Bool
  | [] => true
  | none :: rest => chainReadsOk rest
  | some b :: rest => b.read_error == 0 && chainReadsOk rest

/-- Every record of every block carries a reclen of at least sizeof lr_t. -/
def chainReclensOk : List (Option LogBlock) → Bool
  | [] => true
  | none :: rest => chainReclensOk rest
  | some b :: rest =>
      b.records.all (fun r => sizeof_lr_t ≤ r.lrc_reclen) && chainReclensOk rest

/-- Block sequence numbers strictly increase along adjacent non-hole
entries. -/
def chainBlkSeqsMono : List (Option LogBlock) → Bool
  | some b :: some b' :: rest =>
      b.blk_seq < b'.blk_seq && chainBlkSeqsMono (some b' :: rest)
  | _ :: rest => chainBlkSeqsMono rest
  | [] => true

/-- Record sequence numbers of one block strictly increase from the given
last-seen value and stay at or below the claimed maximum; returns the new
last-seen value. -/
def recSeqsChainRecs (claim_lr_seq : Nat) : Nat → List LogRecord → Option Nat
  | last, [] => some last
  | last, r :: rest =>
      if last < r.lrc_seq ∧ r.lrc_seq ≤ claim_lr_seq then
        recSeqsChainRecs claim_lr_seq r.lrc_seq rest
      else none

/-- Record sequence numbers strictly increase across the whole chain and
stay at or below the claimed maximum. -/
def chainRecSeqsOk (claim_lr_seq : Nat) : Nat → List (Option LogBlock) → Bool
  | _, [] => true
  | last, none :: rest => chainRecSeqsOk claim_lr_seq last rest
  | last, some b :: rest =>
      match recSeqsChainRecs claim_lr_seq last b.records with
      | some last' => chainRecSeqsOk claim_lr_seq last' rest
      | none => false

/-- The blocks the specification expects the walk to visit: the prefix of
the chain up to the first hole or the first block whose sequence number
exceeds the claimed maximum. -/
def claimedChainPart (claim_blk_seq : Nat) : List (Option LogBlock) → List LogBlock
  | some b :: rest =>
      if b.blk_seq ≤ claim_blk_seq then b :: claimedChainPart claim_blk_seq rest
      else []
  | _ => []

/-- All records of a block list, in order. -/
def blocksRecords (bs : List LogBlock) : List LogRecord :=
  bs.foldr (fun b a => b.records ++ a) []

/-- The record sequence value threaded through a record list (the last
record's sequence number, or the initial value for an empty list). -/
def threadLastSeq (ml : Nat) (rs : List LogRecord) : Nat :=
  rs.foldl (fun _ r => r.lrc_seq) ml

/-! ## Lwb capacity bookkeeping

The capacity-related fields of an lwb.  The buffer contents are not
modelled; the checked properties concern the bookkeeping of the four
sizes and the producer-error handling of the fill pass. -/

structure Lwb where
  lwb_slim : Bool
  lwb_sz : Nat
  lwb_nmax : Nat
  lwb_nused : Nat
  lwb_nfilled : Nat
deriving DecidableEq

/-- The ordering invariant of an lwb's capacity fields. -/
def lwbInv (l : Lwb) : Prop :=
  l.lwb_nfilled ≤ l.lwb_nused ∧ l.lwb_nused ≤ l.lwb_nmax ∧ l.lwb_nmax ≤ l.lwb_sz

/-- zil_alloc_lwb, zil.c lines 815-859 (the capacity fields): with a block
pointer already allocated, the size and layout come from it (lsize and
whether the checksum is ZILOG2); otherwise from the requested size and
the pool version.  Slim layout keeps the chain trailer at the start
inside nmax; legacy layout reserves it past nmax. -/
def zil_alloc_lwb (sz0 : Nat) (bp : Option (Nat × Bool)) (spa_slim : Bool) : Lwb :=
  let sz := match bp with
    | some p => p.1
    | none => sz0
  let slim := match bp with
    | some p => p.2
    | none => spa_slim
  if slim then
    { lwb_slim := true, lwb_sz := sz, lwb_nmax := sz
      lwb_nused := sizeof_zil_chain_t, lwb_nfilled := sizeof_zil_chain_t }
  else
    { lwb_slim := false, lwb_sz := sz, lwb_nmax := sz - sizeof_zil_chain_t
      lwb_nused := 0, lwb_nfilled := 0 }

/-- zil_max_log_data, zil.c lines 2073-2077. -/
def zil_max_log_data (zl_max_block_size hdrsize : Nat) : Nat :=
  zl_max_block_size - sizeof_zil_chain_t - hdrsize

/-- zil_max_waste_space, zil.c lines 2083-2087. -/
def zil_max_waste_space (zl_max_block_size : Nat) : Nat :=
  zil_max_log_data zl_max_block_size sizeof_lr_write_t / 16

/-- The new-block condition of zil_lwb_assign, zil.c lines 2245-2250: the
record header does not fit the remaining space, or the record with its
data does not fit, the remaining space is below the waste bound, and for
WR_NEED_COPY layout splitting here would not reduce the number of
chunks (the data is a whole number of maximal chunks, or even the final
residue does not fit the remaining space). -/
def zil_lwb_assign_starts_new (zl_max_block_size lwb_sp reclen dlen : Nat) : Bool :=
  let max_log_data := zil_max_log_data zl_max_block_size sizeof_lr_write_t
  decide (lwb_sp < reclen) ||
    (decide (lwb_sp < reclen + dlen) &&
     decide (lwb_sp < zil_max_waste_space zl_max_block_size) &&
     (decide (dlen % max_log_data = 0) ||
      decide (lwb_sp < reclen + dlen % max_log_data)))

/-- The space reservation of one zil_lwb_assign iteration once the record
stays in the current block, zil.c lines 2269 and 2293: reserve the header
plus as much data as fits. -/
def zil_lwb_assign_fill (l : Lwb) (reclen dlen : Nat) : Lwb :=
  let lwb_sp := l.lwb_nmax - l.lwb_nused
  let dnow := min dlen (lwb_sp - reclen)
  { l with lwb_nused := l.lwb_nused + (reclen + dnow) }

/-! ## Filling records into the lwb buffer (zil_lwb_commit) -/

inductive ItxWrState where
  | WR_COPIED
  | WR_NEED_COPY
  | WR_INDIRECT
deriving DecidableEq

/-- The itx fields read by the fill pass. -/
structure ItxC where
  lrc_txtype : Nat
  lrc_reclen : Nat
  lrc_txg : Nat
  lr_length : Nat
  itx_wr_state : ItxWrState
deriving DecidableEq

/-- zil_itx_data_size, zil.c lines 2169-2181: only a WR_NEED_COPY write
carries out-of-record data counted against the block. -/
def zil_itx_data_size (itx : ItxC) : Nat :=
  if itx.lrc_txtype = TX_WRITE ∧ itx.itx_wr_state = ItxWrState.WR_NEED_COPY then
    P2ROUNDUP itx.lr_length 8
  else 0

/-- zil_itx_record_size, zil.c lines 2158-2167. -/
def zil_itx_record_size (itx : ItxC) : Nat :=
  if itx.lrc_txtype = TX_COMMIT then 0 else itx.lrc_reclen

/-- zil_itx_full_size, zil.c lines 2183-2192. -/
def zil_itx_full_size (itx : ItxC) : Nat :=
  if itx.lrc_txtype = TX_COMMIT then 0 else itx.lrc_reclen + zil_itx_data_size itx

/-- Outcome of filling one itx: the lwb afterwards and the txg passed to
txg_wait_synced, when it was called. -/
structure FillOutcome where
  lwb : Lwb
  waited : Option Nat
deriving DecidableEq

/-- zil_lwb_commit, zil.c lines 2315-2430, with the zl_get_data producer
callback abstracted by its returned error code.  A commit itx fills
nothing.  For a WR_NEED_COPY or WR_INDIRECT write, the producer is
consulted: on success the record (header plus data) is counted into
nfilled; on EIO the code waits for the record's txg to sync and returns
without counting it; on ENOENT, EEXIST or EALREADY it returns without
counting it; any other error is logged and falls through the EIO path. -/
def zil_lwb_commit (l : Lwb) (itx : ItxC) (gd_error : Nat) : FillOutcome :=
  if itx.lrc_txtype = TX_COMMIT then ⟨l, none⟩
  else
    let reclen := itx.lrc_reclen
    let dlen := zil_itx_data_size itx
    let filled : FillOutcome :=
      ⟨{ l with lwb_nfilled := l.lwb_nfilled + (reclen + dlen) }, none⟩
    if itx.lrc_txtype = TX_WRITE ∧ itx.itx_wr_state ≠ ItxWrState.WR_COPIED then
      if gd_error = 0 then filled
      else if gd_error = EIO_err then ⟨l, some itx.lrc_txg⟩
      else if gd_error = ENOENT_err ∨ gd_error = EEXIST_err ∨ gd_error = EALREADY_err then
        ⟨l, none⟩
      else ⟨l, some itx.lrc_txg⟩
    else filled

/-- The fill loop of zil_lwb_write_issue, zil.c lines 1911-1913: fill
every attached itx in order, each paired with its producer result.
Returns the lwb afterwards and one wait outcome per itx. -/
def zil_lwb_write_issue_fill (l : Lwb) : List (ItxC × Nat) → Lwb × List (Option Nat)
  | [] => (l, [])
  | (itx, gd) :: rest =>
      let o := zil_lwb_commit l itx gd
      let r := zil_lwb_write_issue_fill o.lwb rest
      (r.1, o.waited :: r.2)

/-- The nused adjustment after the fill loop, zil.c line 1914: records
skipped by the fill pass release their reservation. -/
def zil_lwb_write_issue_trim (l : Lwb) : Lwb :=
  { l with lwb_nused := l.lwb_nfilled }

/-! ## The sizing predictor (zil_lwb_plan, zil_lwb_predict) -/

/-- The predictor state read from the zilog.  The two history arrays have
ZIL_BURSTS slots in the source; the theorems hold for any length. -/
structure ZilogSizing where
  zl_max_block_size : Nat
  zl_cur_size : Nat
  zl_cur_max : Nat
  zl_prev_min : List Nat
  zl_prev_opt : List Nat
deriving DecidableEq

/-- zil_lwb_plan, zil.c lines 1755-1793, returning the planned chunk size
together with the minimum first-block size (the out-parameter minsize).
The uint truncation of size in the source cannot fire: the medium branch
is only reached for size at most 8 times the maximum block size.  The
subtraction in the minimum computation cannot underflow because the
chunk bound makes s exceed (md - waste) * (n - 1). -/
def zil_lwb_plan (z : ZilogSizing) (size : Nat) : Nat × Nat :=
  let md := z.zl_max_block_size - sizeof_zil_chain_t
  if size ≤ md then (size, size)
  else if 8 * md < size then (md, 0)
  else
    let s := size
    let n := DIV_ROUND_UP s (md - sizeof_lr_write_t)
    let chunk := DIV_ROUND_UP s n
    let waste := max (zil_max_waste_space z.zl_max_block_size) z.zl_cur_max
    if chunk ≤ md - waste then (chunk, max (s - (md - waste) * (n - 1)) waste)
    else (md, 0)

/-- The two-largest scan of zil_lwb_predict, zil.c lines 1820-1828: keep
the largest and second-largest values seen, seeded before the loop. -/
def zil_lwb_predict_scan : Nat × Nat → List Nat → Nat × Nat
  | p, [] => p
  | (m1, m2), m :: rest =>
      if m1 ≤ m then zil_lwb_predict_scan (m, m1) rest
      else if m2 < m then zil_lwb_predict_scan (m1, m) rest
      else zil_lwb_predict_scan (m1, m2) rest

/-- The seeds of the two-largest scan, zil.c lines 1806-1819: the current
burst's planned minimum (when a burst is in progress) and the minimum
optimal size over the history. -/
def zil_lwb_predict_seeds (z : ZilogSizing) : Nat × Nat :=
  let om := if 0 < z.zl_cur_size then zil_lwb_plan z z.zl_cur_size else (UINT_MAX, 0)
  let o := z.zl_prev_opt.foldl min om.1
  (max om.2 o, o)

/-- zil_lwb_predict, zil.c lines 1801-1835: find the two largest minimal
first-block sizes (seeded as above) and return the second one when it
saves at least half of the first, else the first. -/
def zil_lwb_predict (z : ZilogSizing) : Nat :=
  let p := zil_lwb_predict_scan (zil_lwb_predict_seeds z) z.zl_prev_min
  if p.1 < p.2 * 2 then p.1 else p.2

/-- The candidate values the two-largest scan ranges over. -/
def zil_lwb_predict_cands (z : ZilogSizing) : List Nat :=
  (zil_lwb_predict_seeds z).1 :: (zil_lwb_predict_seeds z).2 :: z.zl_prev_min

/-! ## Lwb completion and waiter signalling

Modelled from the spec: the block I/O engine (zio.c is not under the
sources being verified) completes a parent I/O after its children and
propagates a child's error to the parent unless the child was created
with ZIO_FLAG_DONT_PROPAGATE.  Per the comments in zil_lwb_write_done
and zil_lwb_flush_vdevs_done (zil.c lines 1492-1504 and 1652-1666), the
lwb write zio's error propagates to the lwb root zio, while zio_flush
always sets ZIO_FLAG_DONT_PROPAGATE on the vdev cache-flush zios it
creates, so a flush error never reaches the root zio. -/

def zio_flush_dont_propagate : Bool := true

/-- First nonzero error of a list, else 0. -/
def firstError (l : List Nat) : Nat := (l.find? (fun e => e != 0)).getD 0

/-- The error observed by an lwb's root zio once its write has completed
and its vdev cache flushes (issued by zil_lwb_write_done when the write
succeeded) have completed. -/
def lwb_root_zio_error (write_error : Nat) (flush_errors : List Nat) : Nat :=
  if write_error ≠ 0 then write_error
  else if zio_flush_dont_propagate then 0
  else firstError flush_errors

/-- A commit waiter after zil_lwb_flush_vdevs_done signalled it. -/
structure WaiterOut where
  zcw_done : Bool
  zcw_zio_error : Nat
deriving DecidableEq

/-- zil_lwb_flush_vdevs_done, zil.c lines 1487-1514: every waiter linked
to the lwb is marked done and records the root zio's error. -/
def zil_lwb_flush_vdevs_done (write_error : Nat) (flush_errors : List Nat)
    (waiters : Nat) : List WaiterOut :=
  List.replicate waiters ⟨true, lwb_root_zio_error write_error flush_errors⟩

/-- An itx with the given fields is stored in the slot: on the sync list
or on some async node's list. -/
def itxgContains (g : Itxg) (x : Itx) : Prop :=
  ∃ itxs, g.itxg_itxs = some itxs ∧
    (x ∈ itxs.i_sync_list ∨ ∃ p ∈ itxs.i_async_tree, x ∈ p.2)

/-! ## Helper lemmas -/

theorem listGetD_of_len_le {α : Type} :
    ∀ (l : List α) (i : Nat) (d : α), l.length ≤ i → l.getD i d = d := by
  intro l
  induction l with
  | nil => intro i _ _; cases i <;> rfl
  | cons x xs ih =>
      intro i d h
      cases i with
      | zero => simp at h
      | succ j => exact ih j d (by simpa using h)

theorem listGetD_set_self {α : Type} :
    ∀ (l : List α) (i : Nat) (a d : α), i < l.length → (l.set i a).getD i d = a := by
  intro l
  induction l with
  | nil => intro i a d h; simp at h
  | cons x xs ih =>
      intro i a d h
      cases i with
      | zero => rfl
      | succ j => exact ih j a d (by simpa using h)

theorem zil_lwb_write_issue_fill_length (lst : List (ItxC × Nat)) :
    ∀ l : Lwb, (zil_lwb_write_issue_fill l lst).2.length = lst.length := by
  induction lst with
  | nil => intro l; rfl
  | cons p rest ih =>
      intro l
      simp [zil_lwb_write_issue_fill, ih]

/-! ## C9: zil_clean is idempotent -/

/-- C9: clean is idempotent: after clean(ring, txg), running clean again
with the same synced txg leaves the ring unchanged and detaches nothing
(the slot is already empty). -/
theorem zil_c9_clean_idempotent (ring : List Itxg) (t : Nat) :
    zil_clean (zil_clean ring t).1 t = ((zil_clean ring t).1, none) := by
  by_cases h : (ring.getD (t &&& TXG_MASK) ⟨0, none⟩).itxg_itxs = none ∨
      (ring.getD (t &&& TXG_MASK) ⟨0, none⟩).itxg_txg = ZILTEST_TXG
  · have h1 : zil_clean ring t = (ring, none) := by unfold zil_clean; rw [if_pos h]
    rw [h1]
    exact h1
  · have hlt : t &&& TXG_MASK < ring.length := by
      by_contra hge
      push_neg at hge
      rw [listGetD_of_len_le ring (t &&& TXG_MASK) ⟨0, none⟩ hge] at h
      simp at h
    have h1 : zil_clean ring t =
        (ring.set (t &&& TXG_MASK) ⟨0, none⟩,
          (ring.getD (t &&& TXG_MASK) ⟨0, none⟩).itxg_itxs) := by
      unfold zil_clean; rw [if_neg h]
    rw [h1]
    unfold zil_clean
    rw [listGetD_set_self ring (t &&& TXG_MASK) ⟨0, none⟩ ⟨0, none⟩ hlt]
    rw [if_pos (Or.inl rfl)]

/-! ## C10: zil_itx_create rounds and zeroes the pad -/

/-- C10: for any txtype and any requested record size of at least
sizeof lr_t, the created itx's reclen is olrsize rounded up to 8 bytes
(a multiple of 8, at least olrsize, less than olrsize + 8), and every
byte of the pad between olrsize and reclen is zero regardless of the
allocation's prior contents. -/
theorem zil_c10_itx_create_padding (txtype olrsize : Nat) (mem : Nat → Nat)
    (_h : sizeof_lr_t ≤ olrsize) :
    (zil_itx_create txtype olrsize mem).lrc_reclen % 8 = 0 ∧
    olrsize ≤ (zil_itx_create txtype olrsize mem).lrc_reclen ∧
    (zil_itx_create txtype olrsize mem).lrc_reclen < olrsize + 8 ∧
    ∀ i, olrsize ≤ i → i < (zil_itx_create txtype olrsize mem).lrc_reclen →
      (zil_itx_create txtype olrsize mem).body i = 0 := by
  have hd := Nat.div_add_mod (olrsize + 7) 8
  have hm : (olrsize + 7) % 8 < 8 := Nat.mod_lt _ (by decide)
  have hrec : (zil_itx_create txtype olrsize mem).lrc_reclen = (olrsize + 7) / 8 * 8 := rfl
  refine ⟨?_, ?_, ?_, ?_⟩
  · rw [hrec]
    exact Nat.mul_mod_left _ 8
  · rw [hrec]; omega
  · rw [hrec]; omega
  · intro i h1 h2
    have hif : olrsize ≤ i ∧ i < P2ROUNDUP olrsize 8 := ⟨h1, h2⟩
    show (if olrsize ≤ i ∧ i < P2ROUNDUP olrsize 8 then 0 else mem i) = 0
    rw [if_pos hif]

/-- C10 witness: at a concrete size of 33 bytes and nonzero initial
memory, the reclen is 40 and the pad bytes evaluate to zero. -/
theorem zil_c10_itx_create_padding_witness :
    sizeof_lr_t ≤ 33 ∧
    ((zil_itx_create 9 33 (fun _ => 7)).lrc_reclen % 8 = 0 ∧
     33 ≤ (zil_itx_create 9 33 (fun _ => 7)).lrc_reclen ∧
     (zil_itx_create 9 33 (fun _ => 7)).lrc_reclen < 33 + 8 ∧
     ∀ i, 33 ≤ i → i < (zil_itx_create 9 33 (fun _ => 7)).lrc_reclen →
       (zil_itx_create 9 33 (fun _ => 7)).body i = 0) :=
  ⟨by decide, zil_c10_itx_create_padding 9 33 (fun _ => 7) (by decide)⟩

/-! ## C1: error visibility at the commit waiters -/

/-- C1: evaluating the completion path at the failing input.  With a
successful write and a failing vdev cache flush (error EIO), the waiter
is signalled with error 0, because the flush zio is created with
ZIO_FLAG_DONT_PROPAGATE and its error never reaches the lwb's root zio
(the source's own comments in zil_lwb_write_done and
zil_lwb_flush_vdevs_done call this out as incorrect behavior).  A write
error, by contrast, does reach the waiter. -/
theorem zil_c1_flush_error_not_propagated :
    zil_lwb_flush_vdevs_done 0 [EIO_err] 1 = [⟨true, 0⟩] ∧
    EIO_err ≠ 0 ∧
    zil_lwb_flush_vdevs_done EIO_err [] 1 = [⟨true, EIO_err⟩] := by decide

/-! ## C5: producer errors during the fill pass -/

/-- C5: for a WR_NEED_COPY or WR_INDIRECT write record at issue time: a
producer EIO makes the code wait for the record's txg to sync and leaves
the filled region unchanged; ENOENT, EEXIST and EALREADY skip the record
silently (no wait, filled region unchanged); and the fill loop always
continues with the remaining records, producing one outcome per record. -/
theorem zil_c5_get_data_error_handling (l : Lwb) (itx : ItxC) (gd : Nat)
    (rest : List (ItxC × Nat))
    (hw : itx.lrc_txtype = TX_WRITE)
    (hs : itx.itx_wr_state ≠ ItxWrState.WR_COPIED) :
    (gd = EIO_err → zil_lwb_commit l itx gd = ⟨l, some itx.lrc_txg⟩) ∧
    (gd = ENOENT_err ∨ gd = EEXIST_err ∨ gd = EALREADY_err →
      zil_lwb_commit l itx gd = ⟨l, none⟩) ∧
    zil_lwb_write_issue_fill l ((itx, gd) :: rest) =
      ((zil_lwb_write_issue_fill (zil_lwb_commit l itx gd).lwb rest).1,
        (zil_lwb_commit l itx gd).waited ::
          (zil_lwb_write_issue_fill (zil_lwb_commit l itx gd).lwb rest).2) ∧
    (zil_lwb_write_issue_fill l ((itx, gd) :: rest)).2.length = rest.length + 1 := by
  have hnc : itx.lrc_txtype ≠ TX_COMMIT := by rw [hw]; decide
  have hwc : TX_WRITE ≠ TX_COMMIT := by decide
  refine ⟨?_, ?_, rfl, ?_⟩
  · intro hgd
    simp [zil_lwb_commit, hnc, hw, hs, hgd, hwc, EIO_err]
  · intro hgd
    rcases hgd with hgd | hgd | hgd <;>
      simp [zil_lwb_commit, hnc, hw, hs, hgd, hwc, EIO_err, ENOENT_err, EEXIST_err,
        EALREADY_err]
  · rw [zil_lwb_write_issue_fill_length]
    rfl

/-- C5 witness: a concrete WR_NEED_COPY record with producer result EIO,
then ENOENT, each applied to the theorem. -/
theorem zil_c5_get_data_error_handling_witness :
    ((⟨TX_WRITE, 192, 7, 24, ItxWrState.WR_NEED_COPY⟩ : ItxC).lrc_txtype = TX_WRITE ∧
     (⟨TX_WRITE, 192, 7, 24, ItxWrState.WR_NEED_COPY⟩ : ItxC).itx_wr_state ≠
       ItxWrState.WR_COPIED) ∧
    (EIO_err = EIO_err →
      zil_lwb_commit ⟨true, 4096, 4096, 600, 184⟩
          ⟨TX_WRITE, 192, 7, 24, ItxWrState.WR_NEED_COPY⟩ EIO_err =
        ⟨⟨true, 4096, 4096, 600, 184⟩, some 7⟩) ∧
    (ENOENT_err = ENOENT_err →
      zil_lwb_commit ⟨true, 4096, 4096, 600, 184⟩
          ⟨TX_WRITE, 192, 7, 24, ItxWrState.WR_NEED_COPY⟩ ENOENT_err =
        ⟨⟨true, 4096, 4096, 600, 184⟩, none⟩) :=
  ⟨⟨by decide, by decide⟩,
    fun _ => (zil_c5_get_data_error_handling ⟨true, 4096, 4096, 600, 184⟩
      ⟨TX_WRITE, 192, 7, 24, ItxWrState.WR_NEED_COPY⟩ EIO_err []
      (by decide) (by decide)).1 rfl,
    fun _ => (zil_c5_get_data_error_handling ⟨true, 4096, 4096, 600, 184⟩
      ⟨TX_WRITE, 192, 7, 24, ItxWrState.WR_NEED_COPY⟩ ENOENT_err []
      (by decide) (by decide)).2.1 (Or.inl rfl)⟩

/-! ## C6: the lwb capacity ordering invariant -/

/-- C6: nfilled ≤ nused ≤ nmax ≤ sz is established by lwb allocation
(for any block of at least trailer size) and preserved by the space
reservation of itx assignment (given the header fits, which the
new-block path of zil_lwb_assign establishes), by the fill pass (given
the record fits its reservation, which zil_lwb_assign established), and
by the nused adjustment at issue time. -/
theorem zil_c6_lwb_capacity_invariant :
    (∀ sz0 bp spa_slim, sizeof_zil_chain_t ≤ (zil_alloc_lwb sz0 bp spa_slim).lwb_sz →
      lwbInv (zil_alloc_lwb sz0 bp spa_slim)) ∧
    (∀ l reclen dlen, lwbInv l → l.lwb_nused + reclen ≤ l.lwb_nmax →
      lwbInv (zil_lwb_assign_fill l reclen dlen)) ∧
    (∀ l itx gd, lwbInv l →
      l.lwb_nfilled + (itx.lrc_reclen + zil_itx_data_size itx) ≤ l.lwb_nused →
      lwbInv (zil_lwb_commit l itx gd).lwb) ∧
    (∀ l, lwbInv l → lwbInv (zil_lwb_write_issue_trim l)) := by
  refine ⟨?_, ?_, ?_, ?_⟩
  · intro sz0 bp spa_slim hsz
    rcases bp with _ | ⟨lsize, cks⟩
    · cases spa_slim <;> (simp [zil_alloc_lwb, lwbInv] at hsz ⊢; try omega)
    · cases cks <;> (simp [zil_alloc_lwb, lwbInv] at hsz ⊢; try omega)
  · intro l reclen dlen hinv hfit
    obtain ⟨h1, h2, h3⟩ := hinv
    refine ⟨?_, ?_, ?_⟩ <;> simp [zil_lwb_assign_fill] <;> omega
  · intro l itx gd hinv hfit
    obtain ⟨h1, h2, h3⟩ := hinv
    unfold zil_lwb_commit
    by_cases hc : itx.lrc_txtype = TX_COMMIT
    · rw [if_pos hc]; exact ⟨h1, h2, h3⟩
    · rw [if_neg hc]
      by_cases hb : itx.lrc_txtype = TX_WRITE ∧ itx.itx_wr_state ≠ ItxWrState.WR_COPIED
      · rw [if_pos hb]
        by_cases hg0 : gd = 0
        · rw [if_pos hg0]
          exact ⟨by simpa using hfit, h2, h3⟩
        · rw [if_neg hg0]
          by_cases hge : gd = EIO_err
          · rw [if_pos hge]; exact ⟨h1, h2, h3⟩
          · rw [if_neg hge]
            by_cases hgn : gd = ENOENT_err ∨ gd = EEXIST_err ∨ gd = EALREADY_err
            · rw [if_pos hgn]; exact ⟨h1, h2, h3⟩
            · rw [if_neg hgn]; exact ⟨h1, h2, h3⟩
      · rw [if_neg hb]
        exact ⟨by simpa using hfit, h2, h3⟩
  · intro l hinv
    obtain ⟨h1, h2, h3⟩ := hinv
    exact ⟨le_refl _, le_trans h1 h2, h3⟩

/-- C6 witness: a freshly allocated 4096-byte slim lwb satisfies the
invariant, and each pipeline step applied to it preserves it, at
concrete sizes. -/
theorem zil_c6_lwb_capacity_invariant_witness :
    sizeof_zil_chain_t ≤ (zil_alloc_lwb 4096 none true).lwb_sz ∧
    lwbInv (zil_alloc_lwb 4096 none true) ∧
    lwbInv (zil_lwb_assign_fill (zil_alloc_lwb 4096 none true) 192 48) ∧
    lwbInv (zil_lwb_write_issue_trim (zil_alloc_lwb 4096 none true)) := by
  have h0 : sizeof_zil_chain_t ≤ (zil_alloc_lwb 4096 none true).lwb_sz := by decide
  have h1 := zil_c6_lwb_capacity_invariant.1 4096 none true h0
  have h2 := zil_c6_lwb_capacity_invariant.2.1 (zil_alloc_lwb 4096 none true) 192 48 h1
    (by decide)
  have h4 := zil_c6_lwb_capacity_invariant.2.2.2 (zil_alloc_lwb 4096 none true) h1
  exact ⟨h0, h1, h2, h4⟩

/-! ## C8: the new-block decision of zil_lwb_assign -/

/-- C8 counterexample: with a 131072-byte maximum block size, 1000 bytes
of remaining space, a 192-byte WR_NEED_COPY header and 130704 bytes of
data, the remaining space is below the waste bound and the record plus
data exceed it, yet no new block is started: the data's final-chunk
residue (8 bytes) still fits, so splitting continues in the current
block.  This refutes the claim that a new block is started whenever the
remaining capacity is below max_log_data / 16 and the record plus data
exceed it. -/
theorem zil_c8_waste_heuristic_counterexample :
    zil_lwb_assign_starts_new 131072 1000 192 130704 = false ∧
    1000 < zil_max_waste_space 131072 ∧
    1000 < 192 + 130704 := by decide

/-- C8 (amended): a new block is started whenever the record header does
not fit the remaining space; when the record plus its data exceed the
remaining space and the remaining space is below max_log_data / 16, a
new block is started provided splitting in place would not save a chunk:
the data size is a whole multiple of max_log_data, or the remaining
space cannot even hold the header plus the data's final-chunk residue.
Conversely, when no new block is started the header fits, and a new
block is only ever started when the header does not fit or the record
plus data exceed a remaining space below the waste bound. -/
theorem zil_c8_waste_heuristic_amended (mbs sp reclen dlen : Nat) :
    (sp < reclen → zil_lwb_assign_starts_new mbs sp reclen dlen = true) ∧
    (sp < reclen + dlen → sp < zil_max_waste_space mbs →
      sp < reclen + dlen % zil_max_log_data mbs sizeof_lr_write_t →
      zil_lwb_assign_starts_new mbs sp reclen dlen = true) ∧
    (sp < reclen + dlen → sp < zil_max_waste_space mbs →
      dlen % zil_max_log_data mbs sizeof_lr_write_t = 0 →
      zil_lwb_assign_starts_new mbs sp reclen dlen = true) ∧
    (zil_lwb_assign_starts_new mbs sp reclen dlen = false → reclen ≤ sp) ∧
    (zil_lwb_assign_starts_new mbs sp reclen dlen = true →
      sp < reclen ∨ (sp < reclen + dlen ∧ sp < zil_max_waste_space mbs)) := by
  simp only [zil_lwb_assign_starts_new, Bool.or_eq_true, Bool.and_eq_true,
    decide_eq_true_eq, Bool.or_eq_false_iff, Bool.and_eq_false_iff,
    decide_eq_false_iff_not]
  refine ⟨?_, ?_, ?_, ?_, ?_⟩
  · intro h; exact Or.inl h
  · intro h1 h2 h3; exact Or.inr ⟨⟨h1, h2⟩, Or.inr h3⟩
  · intro h1 h2 h3; exact Or.inr ⟨⟨h1, h2⟩, Or.inl h3⟩
  · intro h
    rcases h with ⟨h1, _⟩
    omega
  · intro h
    rcases h with h | ⟨⟨h1, h2⟩, _⟩
    · exact Or.inl h
    · exact Or.inr ⟨h1, h2⟩

/-- C8 witness: the header-does-not-fit branch starts a new block at
concrete sizes, and at the counterexample sizes the header fits as the
amended claim states. -/
theorem zil_c8_waste_heuristic_amended_witness :
    zil_lwb_assign_starts_new 131072 100 192 0 = true ∧ (192 : Nat) ≤ 1000 :=
  ⟨(zil_c8_waste_heuristic_amended 131072 100 192 0).1 (by decide),
   (zil_c8_waste_heuristic_amended 131072 1000 192 130704).2.2.2.1 (by decide)⟩

/-! ## C7: the sizing predictor picks among the two largest minima -/

theorem zil_lwb_predict_scan_spec :
    ∀ (l : List Nat) (m1 m2 : Nat), m2 ≤ m1 →
      (zil_lwb_predict_scan (m1, m2) l).2 ≤ (zil_lwb_predict_scan (m1, m2) l).1 ∧
      m1 ≤ (zil_lwb_predict_scan (m1, m2) l).1 ∧
      m2 ≤ (zil_lwb_predict_scan (m1, m2) l).2 ∧
      ((zil_lwb_predict_scan (m1, m2) l).1 = m1 ∨
        (zil_lwb_predict_scan (m1, m2) l).1 ∈ l) ∧
      ((zil_lwb_predict_scan (m1, m2) l).2 = m1 ∨
        (zil_lwb_predict_scan (m1, m2) l).2 = m2 ∨
        (zil_lwb_predict_scan (m1, m2) l).2 ∈ l) ∧
      (∀ x ∈ l, x ≤ (zil_lwb_predict_scan (m1, m2) l).1) ∧
      ((m1 :: l).filter
        (fun x => decide ((zil_lwb_predict_scan (m1, m2) l).2 < x))).length ≤ 1 := by
  intro l
  induction l with
  | nil =>
      intro m1 m2 h
      refine ⟨h, le_refl _, le_refl _, Or.inl rfl, Or.inr (Or.inl rfl), ?_, ?_⟩
      · intro x hx; simp at hx
      · exact le_trans (List.length_filter_le _ _) (by simp)
  | cons x l ih =>
      intro m1 m2 h
      by_cases h1 : m1 ≤ x
      · have hstep : zil_lwb_predict_scan (m1, m2) (x :: l) =
            zil_lwb_predict_scan (x, m1) l := by
          simp only [zil_lwb_predict_scan]; rw [if_pos h1]
        rw [hstep]
        obtain ⟨a1, a2, a3, a4, a5, a6, a7⟩ := ih x m1 h1
        have hqm1 : (decide ((zil_lwb_predict_scan (x, m1) l).2 < m1)) = false :=
          decide_eq_false (not_lt.mpr a3)
        refine ⟨a1, le_trans h1 a2, le_trans h a3, ?_, ?_, ?_, ?_⟩
        · rcases a4 with ha | ha
          · exact Or.inr (by rw [ha]; exact List.mem_cons_self x l)
          · exact Or.inr (List.mem_cons_of_mem x ha)
        · rcases a5 with ha | ha | ha
          · exact Or.inr (Or.inr (by rw [ha]; exact List.mem_cons_self x l))
          · exact Or.inl ha
          · exact Or.inr (Or.inr (List.mem_cons_of_mem x ha))
        · intro y hy
          rcases List.mem_cons.mp hy with hy | hy
          · rw [hy]; exact a2
          · exact a6 y hy
        · have hcut : (m1 :: x :: l).filter
              (fun y => decide ((zil_lwb_predict_scan (x, m1) l).2 < y)) =
              (x :: l).filter
              (fun y => decide ((zil_lwb_predict_scan (x, m1) l).2 < y)) := by
            simp [List.filter_cons, hqm1]
          rw [hcut]
          exact a7
      · have hx1 : x ≤ m1 := le_of_lt (not_le.mp h1)
        by_cases h2 : m2 < x
        · have hstep : zil_lwb_predict_scan (m1, m2) (x :: l) =
              zil_lwb_predict_scan (m1, x) l := by
            simp only [zil_lwb_predict_scan]; rw [if_neg h1, if_pos h2]
          rw [hstep]
          obtain ⟨b1, b2, b3, b4, b5, b6, b7⟩ := ih m1 x hx1
          have hqx : (fun y => decide ((zil_lwb_predict_scan (m1, x) l).2 < y)) x = false :=
            decide_eq_false (not_lt.mpr b3)
          refine ⟨b1, b2, le_trans (le_of_lt h2) b3, ?_, ?_, ?_, ?_⟩
          · rcases b4 with hb | hb
            · exact Or.inl hb
            · exact Or.inr (List.mem_cons_of_mem x hb)
          · rcases b5 with hb | hb | hb
            · exact Or.inl hb
            · exact Or.inr (Or.inr (by rw [hb]; exact List.mem_cons_self x l))
            · exact Or.inr (Or.inr (List.mem_cons_of_mem x hb))
          · intro y hy
            rcases List.mem_cons.mp hy with hy | hy
            · rw [hy]; exact le_trans b3 b1
            · exact b6 y hy
          · have hcut : (m1 :: x :: l).filter
                (fun y => decide ((zil_lwb_predict_scan (m1, x) l).2 < y)) =
                (m1 :: l).filter
                (fun y => decide ((zil_lwb_predict_scan (m1, x) l).2 < y)) := by
              simp [List.filter_cons, hqx]
            rw [hcut]
            exact b7
        · have hstep : zil_lwb_predict_scan (m1, m2) (x :: l) =
              zil_lwb_predict_scan (m1, m2) l := by
            simp only [zil_lwb_predict_scan]; rw [if_neg h1, if_neg h2]
          rw [hstep]
          have hx2 : x ≤ m2 := not_lt.mp h2
          obtain ⟨c1, c2, c3, c4, c5, c6, c7⟩ := ih m1 m2 h
          have hqx : (fun y => decide ((zil_lwb_predict_scan (m1, m2) l).2 < y)) x = false :=
            decide_eq_false (not_lt.mpr (le_trans hx2 c3))
          refine ⟨c1, c2, c3, ?_, ?_, ?_, ?_⟩
          · rcases c4 with hc | hc
            · exact Or.inl hc
            · exact Or.inr (List.mem_cons_of_mem x hc)
          · rcases c5 with hc | hc | hc
            · exact Or.inl hc
            · exact Or.inr (Or.inl hc)
            · exact Or.inr (Or.inr (List.mem_cons_of_mem x hc))
          · intro y hy
            rcases List.mem_cons.mp hy with hy | hy
            · rw [hy]; exact le_trans hx2 (le_trans c3 c1)
            · exact c6 y hy
          · have hcut : (m1 :: x :: l).filter
                (fun y => decide ((zil_lwb_predict_scan (m1, m2) l).2 < y)) =
                (m1 :: l).filter
                (fun y => decide ((zil_lwb_predict_scan (m1, m2) l).2 < y)) := by
              simp [List.filter_cons, hqx]
            rw [hcut]
            exact c7

theorem zil_lwb_predict_seeds_le (z : ZilogSizing) :
    (zil_lwb_predict_seeds z).2 ≤ (zil_lwb_predict_seeds z).1 := by
  unfold zil_lwb_predict_seeds
  exact le_max_right _ _

/-- C7: zil_lwb_predict computes the two largest minimal first-block
sizes among its candidates (the current burst's planned minimum, the
historical optimal floor, and the recorded history of burst minima): the
scan result is an ordered pair of candidates that bounds all candidates
with at most one candidate above the second; the function returns the
smaller of the two when the larger is at least twice the smaller (a 50%
saving), and otherwise the larger. -/
theorem zil_c7_predict_two_largest (z : ZilogSizing) :
    (zil_lwb_predict_scan (zil_lwb_predict_seeds z) z.zl_prev_min).2 ≤
      (zil_lwb_predict_scan (zil_lwb_predict_seeds z) z.zl_prev_min).1 ∧
    (zil_lwb_predict_scan (zil_lwb_predict_seeds z) z.zl_prev_min).1 ∈
      zil_lwb_predict_cands z ∧
    (zil_lwb_predict_scan (zil_lwb_predict_seeds z) z.zl_prev_min).2 ∈
      zil_lwb_predict_cands z ∧
    (∀ x ∈ zil_lwb_predict_cands z,
      x ≤ (zil_lwb_predict_scan (zil_lwb_predict_seeds z) z.zl_prev_min).1) ∧
    ((zil_lwb_predict_cands z).filter
      (fun x => decide
        ((zil_lwb_predict_scan (zil_lwb_predict_seeds z) z.zl_prev_min).2 < x))).length ≤ 1 ∧
    (2 * (zil_lwb_predict_scan (zil_lwb_predict_seeds z) z.zl_prev_min).2 ≤
        (zil_lwb_predict_scan (zil_lwb_predict_seeds z) z.zl_prev_min).1 →
      zil_lwb_predict z =
        (zil_lwb_predict_scan (zil_lwb_predict_seeds z) z.zl_prev_min).2) ∧
    ((zil_lwb_predict_scan (zil_lwb_predict_seeds z) z.zl_prev_min).1 <
        2 * (zil_lwb_predict_scan (zil_lwb_predict_seeds z) z.zl_prev_min).2 →
      zil_lwb_predict z =
        (zil_lwb_predict_scan (zil_lwb_predict_seeds z) z.zl_prev_min).1) := by
  obtain ⟨a1, a2, a3, a4, a5, a6, a7⟩ :=
    zil_lwb_predict_scan_spec z.zl_prev_min (zil_lwb_predict_seeds z).1
      (zil_lwb_predict_seeds z).2 (zil_lwb_predict_seeds_le z)
  have hcands : zil_lwb_predict_cands z =
      (zil_lwb_predict_seeds z).1 :: (zil_lwb_predict_seeds z).2 :: z.zl_prev_min := rfl
  have hpredict : zil_lwb_predict z =
      if (zil_lwb_predict_scan (zil_lwb_predict_seeds z) z.zl_prev_min).1 <
          (zil_lwb_predict_scan (zil_lwb_predict_seeds z) z.zl_prev_min).2 * 2 then
        (zil_lwb_predict_scan (zil_lwb_predict_seeds z) z.zl_prev_min).1
      else (zil_lwb_predict_scan (zil_lwb_predict_seeds z) z.zl_prev_min).2 := rfl
  refine ⟨a1, ?_, ?_, ?_, ?_, ?_, ?_⟩
  · rw [hcands]
    rcases a4 with ha | ha
    · rw [ha]; exact List.mem_cons_self _ _
    · exact List.mem_cons_of_mem _ (List.mem_cons_of_mem _ ha)
  · rw [hcands]
    rcases a5 with ha | ha | ha
    · rw [ha]; exact List.mem_cons_self _ _
    · rw [ha]; exact List.mem_cons_of_mem _ (List.mem_cons_self _ _)
    · exact List.mem_cons_of_mem _ (List.mem_cons_of_mem _ ha)
  · rw [hcands]
    intro x hx
    rcases List.mem_cons.mp hx with hx | hx
    · rw [hx]; exact a2
    · rcases List.mem_cons.mp hx with hx | hx
      · rw [hx]; exact le_trans a3 a1
      · exact a6 x hx
  · rw [hcands]
    have hq2 : (decide
        ((zil_lwb_predict_scan (zil_lwb_predict_seeds z) z.zl_prev_min).2 <
          (zil_lwb_predict_seeds z).2)) = false :=
      decide_eq_false (not_lt.mpr a3)
    have hcut : ((zil_lwb_predict_seeds z).1 :: (zil_lwb_predict_seeds z).2 ::
        z.zl_prev_min).filter
        (fun x => decide
          ((zil_lwb_predict_scan (zil_lwb_predict_seeds z) z.zl_prev_min).2 < x)) =
        ((zil_lwb_predict_seeds z).1 :: z.zl_prev_min).filter
        (fun x => decide
          ((zil_lwb_predict_scan (zil_lwb_predict_seeds z) z.zl_prev_min).2 < x)) := by
      simp [List.filter_cons, hq2]
    rw [hcut]
    exact a7
  · intro hle
    rw [hpredict, if_neg (not_lt.mpr (by omega))]
  · intro hlt
    rw [hpredict, if_pos (by omega)]

/-! ## C2: the txg recorded by zil_itx_assign -/

theorem asyncToSyncSlot_preserves (st : ZilogItxState) (foid txg : Nat) :
    (asyncToSyncSlot st foid txg).zl_dirty = st.zl_dirty ∧
    (asyncToSyncSlot st foid txg).spa_frozen = st.spa_frozen ∧
    (asyncToSyncSlot st foid txg).zl_itxg.length = st.zl_itxg.length := by
  unfold asyncToSyncSlot
  dsimp only
  split
  · split
    · exact ⟨rfl, rfl, by simp⟩
    · exact ⟨rfl, rfl, rfl⟩
  · exact ⟨rfl, rfl, rfl⟩

theorem zil_async_to_sync_preserves (st : ZilogItxState) (foid : Nat) :
    (zil_async_to_sync st foid).zl_dirty = st.zl_dirty ∧
    (zil_async_to_sync st foid).spa_frozen = st.spa_frozen ∧
    (zil_async_to_sync st foid).zl_itxg.length = st.zl_itxg.length := by
  unfold zil_async_to_sync
  have hr : List.range TXG_CONCURRENT_STATES = [0, 1, 2] := rfl
  rw [hr]
  simp only [List.foldl]
  refine ⟨?_, ?_, ?_⟩
  · rw [(asyncToSyncSlot_preserves _ _ _).1, (asyncToSyncSlot_preserves _ _ _).1,
      (asyncToSyncSlot_preserves _ _ _).1]
  · rw [(asyncToSyncSlot_preserves _ _ _).2.1, (asyncToSyncSlot_preserves _ _ _).2.1,
      (asyncToSyncSlot_preserves _ _ _).2.1]
  · rw [(asyncToSyncSlot_preserves _ _ _).2.2, (asyncToSyncSlot_preserves _ _ _).2.2,
      (asyncToSyncSlot_preserves _ _ _).2.2]

theorem treeInsertItx_mem (t : List (Nat × List Itx)) (foid : Nat) (x : Itx) :
    ∃ p ∈ treeInsertItx t foid x, x ∈ p.2 := by
  unfold treeInsertItx
  cases hf : treeFind t foid with
  | none =>
      exact ⟨(foid, [x]), List.mem_append_right _ (List.mem_singleton_self _),
        List.mem_singleton_self _⟩
  | some l =>
      unfold treeFind at hf
      cases hp : t.find? (fun p => p.1 == foid) with
      | none => rw [hp] at hf; cases hf
      | some pr =>
          rw [hp] at hf
          injection hf with hf2
          have hmem := List.mem_of_find?_eq_some hp
          have hpred0 := List.find?_some hp
          have hpred : (pr.1 == foid) = true := hpred0
          refine ⟨(pr.1, l ++ [x]), ?_,
            List.mem_append_right _ (List.mem_singleton_self _)⟩
          unfold treeSet
          have himg : (fun p => if p.1 == foid then (p.1, l ++ [x]) else p) pr =
              (pr.1, l ++ [x]) := by
            simp only [hpred, if_true]
          rw [← himg]
          exact List.mem_map_of_mem _ hmem

theorem zil_itx_assign_enqueue_spec (st : ZilogItxState) (itx : Itx) (tx_txg : Nat)
    (hlen : st.zl_itxg.length = TXG_SIZE) :
    (zil_itx_assign_enqueue st itx tx_txg).resolved =
      (if st.spa_frozen then ZILTEST_TXG else tx_txg) ∧
    (zil_itx_assign_enqueue st itx tx_txg).st.zl_dirty = tx_txg :: st.zl_dirty ∧
    ((zil_itx_assign_enqueue st itx tx_txg).st.zl_itxg.getD
      ((zil_itx_assign_enqueue st itx tx_txg).resolved &&& TXG_MASK)
      ⟨0, none⟩).itxg_txg = (zil_itx_assign_enqueue st itx tx_txg).resolved ∧
    itxgContains ((zil_itx_assign_enqueue st itx tx_txg).st.zl_itxg.getD
      ((zil_itx_assign_enqueue st itx tx_txg).resolved &&& TXG_MASK) ⟨0, none⟩)
      { itx with lrc_txg := tx_txg } := by
  have hidx : ((if st.spa_frozen then ZILTEST_TXG else tx_txg) &&& TXG_MASK) <
      st.zl_itxg.length := by
    rw [hlen]
    have hle : ((if st.spa_frozen then ZILTEST_TXG else tx_txg) &&& TXG_MASK) ≤
        TXG_MASK := Nat.and_le_right
    have h34 : TXG_MASK < TXG_SIZE := by decide
    omega
  have hres : (zil_itx_assign_enqueue st itx tx_txg).resolved =
      (if st.spa_frozen then ZILTEST_TXG else tx_txg) := rfl
  have hget := listGetD_set_self st.zl_itxg
    ((if st.spa_frozen then ZILTEST_TXG else tx_txg) &&& TXG_MASK)
    ((zil_itx_assign_enqueue st itx tx_txg).st.zl_itxg.getD
      ((if st.spa_frozen then ZILTEST_TXG else tx_txg) &&& TXG_MASK) ⟨0, none⟩)
    ⟨0, none⟩ hidx
  refine ⟨hres, rfl, ?_, ?_⟩
  · rw [hres]
    exact congrArg Itxg.itxg_txg
      (listGetD_set_self st.zl_itxg _ _ ⟨0, none⟩ hidx)
  · rw [hres]
    rw [show (zil_itx_assign_enqueue st itx tx_txg).st.zl_itxg =
        st.zl_itxg.set ((if st.spa_frozen then ZILTEST_TXG else tx_txg) &&& TXG_MASK)
          ⟨(if st.spa_frozen then ZILTEST_TXG else tx_txg),
            some (if itx.itx_sync then
              { (if (st.zl_itxg.getD ((if st.spa_frozen then ZILTEST_TXG else tx_txg) &&&
                    TXG_MASK) ⟨0, none⟩).itxg_txg ≠
                    (if st.spa_frozen then ZILTEST_TXG else tx_txg) then (⟨[], []⟩ : Itxs)
                 else (st.zl_itxg.getD ((if st.spa_frozen then ZILTEST_TXG else tx_txg) &&&
                    TXG_MASK) ⟨0, none⟩).itxg_itxs.getD ⟨[], []⟩) with
                i_sync_list :=
                  (if (st.zl_itxg.getD ((if st.spa_frozen then ZILTEST_TXG else tx_txg) &&&
                      TXG_MASK) ⟨0, none⟩).itxg_txg ≠
                      (if st.spa_frozen then ZILTEST_TXG else tx_txg) then (⟨[], []⟩ : Itxs)
                   else (st.zl_itxg.getD ((if st.spa_frozen then ZILTEST_TXG else tx_txg) &&&
                      TXG_MASK) ⟨0, none⟩).itxg_itxs.getD ⟨[], []⟩).i_sync_list ++
                    [{ itx with lrc_txg := tx_txg }] }
              else
              { (if (st.zl_itxg.getD ((if st.spa_frozen then ZILTEST_TXG else tx_txg) &&&
                    TXG_MASK) ⟨0, none⟩).itxg_txg ≠
                    (if st.spa_frozen then ZILTEST_TXG else tx_txg) then (⟨[], []⟩ : Itxs)
                 else (st.zl_itxg.getD ((if st.spa_frozen then ZILTEST_TXG else tx_txg) &&&
                    TXG_MASK) ⟨0, none⟩).itxg_itxs.getD ⟨[], []⟩) with
                i_async_tree :=
                  treeInsertItx
                    (if (st.zl_itxg.getD ((if st.spa_frozen then ZILTEST_TXG else tx_txg) &&&
                        TXG_MASK) ⟨0, none⟩).itxg_txg ≠
                        (if st.spa_frozen then ZILTEST_TXG else tx_txg) then (⟨[], []⟩ : Itxs)
                     else (st.zl_itxg.getD ((if st.spa_frozen then ZILTEST_TXG else tx_txg) &&&
                        TXG_MASK) ⟨0, none⟩).itxg_itxs.getD ⟨[], []⟩).i_async_tree
                    (LR_FOID_GET_OBJ itx.lr_foid) { itx with lrc_txg := tx_txg } })⟩
      from rfl]
    rw [listGetD_set_self _ _ _ ⟨0, none⟩ hidx]
    by_cases hsync : itx.itx_sync
    · rw [if_pos hsync]
      exact ⟨_, rfl, Or.inl (List.mem_append_right _ (List.mem_singleton_self _))⟩
    · rw [if_neg hsync]
      obtain ⟨p, hp, hx⟩ := treeInsertItx_mem _ (LR_FOID_GET_OBJ itx.lr_foid)
        { itx with lrc_txg := tx_txg }
      exact ⟨_, rfl, Or.inr ⟨p, hp, hx⟩⟩

/-- C2 counterexample: on a frozen pool, assigning a sync TX_WRITE itx
with tx.txg = 5 resolves the bucketing txg to ZILTEST_TXG, but the
stored itx's recorded lrc_txg field is 5 (the tx's txg, not the resolved
txg) and the zilog is dirtied in txg 5, not in the resolved txg; this
refutes the claim that the recorded txg field and the dirty marking use
the resolved txg.  (zil.c lines 2663-2671, including the comment that
the ZIL must always be dirtied using the real txg.) -/
theorem zil_c2_frozen_txg_counterexample :
    (zil_itx_assign ⟨[⟨0, none⟩, ⟨0, none⟩, ⟨0, none⟩, ⟨0, none⟩], [], true, 0⟩
      ⟨TX_WRITE, 40, 0, 0, true, 0, 7⟩ 5).resolved = ZILTEST_TXG ∧
    ((zil_itx_assign ⟨[⟨0, none⟩, ⟨0, none⟩, ⟨0, none⟩, ⟨0, none⟩], [], true, 0⟩
      ⟨TX_WRITE, 40, 0, 0, true, 0, 7⟩ 5).st.zl_itxg.getD 0 ⟨0, none⟩).itxg_itxs =
      some ⟨[⟨TX_WRITE, 40, 5, 0, true, 0, 7⟩], []⟩ ∧
    (5 : Nat) ≠ ZILTEST_TXG ∧
    (zil_itx_assign ⟨[⟨0, none⟩, ⟨0, none⟩, ⟨0, none⟩, ⟨0, none⟩], [], true, 0⟩
      ⟨TX_WRITE, 40, 0, 0, true, 0, 7⟩ 5).st.zl_dirty = [5] ∧
    ZILTEST_TXG ∉ (zil_itx_assign ⟨[⟨0, none⟩, ⟨0, none⟩, ⟨0, none⟩, ⟨0, none⟩],
      [], true, 0⟩ ⟨TX_WRITE, 40, 0, 0, true, 0, 7⟩ 5).st.zl_dirty := by decide

/-- C2 (amended): for every itx and transaction, the resolved bucketing
txg is tx.txg, or ZILTEST_TXG when the pool is frozen; the itx is filed
in the ring slot keyed by the resolved txg and that slot's txg field is
set to the resolved txg; but the itx's recorded lrc_txg field is set to
tx.txg and the zilog is marked dirty in tx.txg (the real txg, even when
the pool is frozen, so that zil_clean is invoked for it). -/
theorem zil_c2_itx_assign_txg_amended (st0 : ZilogItxState) (itx : Itx) (tx_txg : Nat)
    (hlen : st0.zl_itxg.length = TXG_SIZE) :
    (zil_itx_assign st0 itx tx_txg).resolved =
      (if st0.spa_frozen then ZILTEST_TXG else tx_txg) ∧
    (zil_itx_assign st0 itx tx_txg).st.zl_dirty = tx_txg :: st0.zl_dirty ∧
    ((zil_itx_assign st0 itx tx_txg).st.zl_itxg.getD
      ((zil_itx_assign st0 itx tx_txg).resolved &&& TXG_MASK) ⟨0, none⟩).itxg_txg =
      (zil_itx_assign st0 itx tx_txg).resolved ∧
    itxgContains ((zil_itx_assign st0 itx tx_txg).st.zl_itxg.getD
      ((zil_itx_assign st0 itx tx_txg).resolved &&& TXG_MASK) ⟨0, none⟩)
      { itx with lrc_txg := tx_txg } := by
  by_cases hrn : txtypeNoCI itx.lrc_txtype = TX_RENAME
  · have heq : zil_itx_assign st0 itx tx_txg =
        zil_itx_assign_enqueue (zil_async_to_sync st0 itx.itx_oid) itx tx_txg := by
      unfold zil_itx_assign; rw [if_pos hrn]
    obtain ⟨pd, pf, pl⟩ := zil_async_to_sync_preserves st0 itx.itx_oid
    obtain ⟨e1, e2, e3, e4⟩ := zil_itx_assign_enqueue_spec
      (zil_async_to_sync st0 itx.itx_oid) itx tx_txg (by rw [pl, hlen])
    rw [heq]
    exact ⟨by rw [e1, pf], by rw [e2, pd], e3, e4⟩
  · have heq : zil_itx_assign st0 itx tx_txg =
        zil_itx_assign_enqueue st0 itx tx_txg := by
      unfold zil_itx_assign; rw [if_neg hrn]
    obtain ⟨e1, e2, e3, e4⟩ := zil_itx_assign_enqueue_spec st0 itx tx_txg hlen
    rw [heq]
    exact ⟨e1, e2, e3, e4⟩

/-- C2 witness: an unfrozen four-slot ring, a sync itx and tx.txg = 3,
applied to the amended theorem. -/
theorem zil_c2_itx_assign_txg_amended_witness :
    ((⟨[⟨0, none⟩, ⟨0, none⟩, ⟨0, none⟩, ⟨0, none⟩], [], false, 0⟩ :
      ZilogItxState).zl_itxg.length = TXG_SIZE) ∧
    ((zil_itx_assign ⟨[⟨0, none⟩, ⟨0, none⟩, ⟨0, none⟩, ⟨0, none⟩], [], false, 0⟩
        ⟨TX_WRITE, 40, 0, 0, true, 0, 7⟩ 3).resolved =
      (if (⟨[⟨0, none⟩, ⟨0, none⟩, ⟨0, none⟩, ⟨0, none⟩], [], false, 0⟩ :
        ZilogItxState).spa_frozen then ZILTEST_TXG else 3) ∧
     (zil_itx_assign ⟨[⟨0, none⟩, ⟨0, none⟩, ⟨0, none⟩, ⟨0, none⟩], [], false, 0⟩
        ⟨TX_WRITE, 40, 0, 0, true, 0, 7⟩ 3).st.zl_dirty = 3 :: [] ∧
     ((zil_itx_assign ⟨[⟨0, none⟩, ⟨0, none⟩, ⟨0, none⟩, ⟨0, none⟩], [], false, 0⟩
        ⟨TX_WRITE, 40, 0, 0, true, 0, 7⟩ 3).st.zl_itxg.getD
        ((zil_itx_assign ⟨[⟨0, none⟩, ⟨0, none⟩, ⟨0, none⟩, ⟨0, none⟩], [], false, 0⟩
          ⟨TX_WRITE, 40, 0, 0, true, 0, 7⟩ 3).resolved &&& TXG_MASK)
        ⟨0, none⟩).itxg_txg =
      (zil_itx_assign ⟨[⟨0, none⟩, ⟨0, none⟩, ⟨0, none⟩, ⟨0, none⟩], [], false, 0⟩
        ⟨TX_WRITE, 40, 0, 0, true, 0, 7⟩ 3).resolved ∧
     itxgContains ((zil_itx_assign ⟨[⟨0, none⟩, ⟨0, none⟩, ⟨0, none⟩, ⟨0, none⟩],
        [], false, 0⟩ ⟨TX_WRITE, 40, 0, 0, true, 0, 7⟩ 3).st.zl_itxg.getD
        ((zil_itx_assign ⟨[⟨0, none⟩, ⟨0, none⟩, ⟨0, none⟩, ⟨0, none⟩], [], false, 0⟩
          ⟨TX_WRITE, 40, 0, 0, true, 0, 7⟩ 3).resolved &&& TXG_MASK) ⟨0, none⟩)
      { (⟨TX_WRITE, 40, 0, 0, true, 0, 7⟩ : Itx) with lrc_txg := 3 }) :=
  ⟨by decide,
   zil_c2_itx_assign_txg_amended ⟨[⟨0, none⟩, ⟨0, none⟩, ⟨0, none⟩, ⟨0, none⟩],
     [], false, 0⟩ ⟨TX_WRITE, 40, 0, 0, true, 0, 7⟩ 3 (by decide)⟩

/-! ## C3: the header after a claiming parse -/

/-- C3 counterexample: a header with claim_txg 0 whose chain is a single
block with no records.  The claiming parse runs (the head is not a hole)
and succeeds (error 0), and the header is stamped with claim_txg =
first_txg, but the REPLAY_NEEDED flag is not set: the parse counted no
record and only one block (zil.c line 1226).  This refutes the claim
that both flags are set whenever the claiming parse succeeds. -/
theorem zil_c3_replay_needed_counterexample :
    (zil_parse ⟨0, 0, 0, 0, [some ⟨1, 0, []⟩, none]⟩ (fun _ => 0) (fun _ => 0)).error = 0 ∧
    (⟨0, 0, 0, 0, [some ⟨1, 0, []⟩, none]⟩ : ZilHeader).zh_claim_txg = 0 ∧
    chainHeadHole (⟨0, 0, 0, 0, [some ⟨1, 0, []⟩, none]⟩ : ZilHeader).zh_log = false ∧
    (zil_claim ⟨0, 0, 0, 0, [some ⟨1, 0, []⟩, none]⟩ (fun _ => 0) (fun _ => 0)
      4).zh_claim_txg = 4 ∧
    (zil_claim ⟨0, 0, 0, 0, [some ⟨1, 0, []⟩, none]⟩ (fun _ => 0) (fun _ => 0)
      4).zh_flags &&& ZIL_REPLAY_NEEDED = 0 := by decide

/-- C3 (amended): whenever claim runs the claiming parse (claim_txg is 0
and the chain head is not a hole), the header afterwards carries
claim_txg = first_txg, the parsed maximum block and record sequence
numbers, and the CLAIM_LR_SEQ_VALID flag; the REPLAY_NEEDED flag is
newly set exactly when the parse counted at least one record or more
than one block, and is otherwise left as it was. -/
theorem zil_c3_claim_stamp_amended (zh : ZilHeader) (pb : LogBlock → Nat)
    (pl : LogRecord → Nat) (first_txg : Nat)
    (h0 : zh.zh_claim_txg = 0) (hh : chainHeadHole zh.zh_log = false) :
    (zil_claim zh pb pl first_txg).zh_claim_txg = first_txg ∧
    (zil_claim zh pb pl first_txg).zh_claim_blk_seq = (zil_parse zh pb pl).max_blk_seq ∧
    (zil_claim zh pb pl first_txg).zh_claim_lr_seq = (zil_parse zh pb pl).max_lr_seq ∧
    (zil_claim zh pb pl first_txg).zh_flags.testBit 1 = true ∧
    (((zil_parse zh pb pl).lr_count ≠ 0 ∨ 1 < (zil_parse zh pb pl).blk_count) →
      (zil_claim zh pb pl first_txg).zh_flags.testBit 0 = true) ∧
    (¬((zil_parse zh pb pl).lr_count ≠ 0 ∨ 1 < (zil_parse zh pb pl).blk_count) →
      (zil_claim zh pb pl first_txg).zh_flags.testBit 0 = zh.zh_flags.testBit 0) := by
  have hcl : zil_claim zh pb pl first_txg =
      { zh with
        zh_claim_txg := first_txg
        zh_claim_blk_seq := (zil_parse zh pb pl).max_blk_seq
        zh_claim_lr_seq := (zil_parse zh pb pl).max_lr_seq
        zh_flags :=
          (if (zil_parse zh pb pl).lr_count ≠ 0 ∨ 1 < (zil_parse zh pb pl).blk_count then
            zh.zh_flags ||| ZIL_REPLAY_NEEDED
           else zh.zh_flags) ||| ZIL_CLAIM_LR_SEQ_VALID } := by
    unfold zil_claim
    rw [if_pos ⟨h0, hh⟩]
  rw [hcl]
  refine ⟨rfl, rfl, rfl, ?_, ?_, ?_⟩
  · show (((if (zil_parse zh pb pl).lr_count ≠ 0 ∨ 1 < (zil_parse zh pb pl).blk_count then
        zh.zh_flags ||| ZIL_REPLAY_NEEDED
      else zh.zh_flags) ||| ZIL_CLAIM_LR_SEQ_VALID)).testBit 1 = true
    rw [Nat.testBit_lor]
    have h2 : (ZIL_CLAIM_LR_SEQ_VALID).testBit 1 = true := by decide
    rw [h2, Bool.or_true]
  · intro hc
    show (((if (zil_parse zh pb pl).lr_count ≠ 0 ∨ 1 < (zil_parse zh pb pl).blk_count then
        zh.zh_flags ||| ZIL_REPLAY_NEEDED
      else zh.zh_flags) ||| ZIL_CLAIM_LR_SEQ_VALID)).testBit 0 = true
    rw [if_pos hc, Nat.testBit_lor, Nat.testBit_lor]
    have h1 : (ZIL_REPLAY_NEEDED).testBit 0 = true := by decide
    rw [h1, Bool.or_true, Bool.true_or]
  · intro hc
    show (((if (zil_parse zh pb pl).lr_count ≠ 0 ∨ 1 < (zil_parse zh pb pl).blk_count then
        zh.zh_flags ||| ZIL_REPLAY_NEEDED
      else zh.zh_flags) ||| ZIL_CLAIM_LR_SEQ_VALID)).testBit 0 = zh.zh_flags.testBit 0
    rw [if_neg hc, Nat.testBit_lor]
    have h2 : (ZIL_CLAIM_LR_SEQ_VALID).testBit 0 = false := by decide
    rw [h2, Bool.or_false]

/-- C3 witness: a header whose one-block chain carries one record,
applied to the amended theorem; the claiming parse counts one record, so
REPLAY_NEEDED is newly set. -/
theorem zil_c3_claim_stamp_amended_witness :
    ((⟨0, 0, 0, 0, [some ⟨1, 0, [⟨9, 40, 3, 1⟩]⟩, none]⟩ : ZilHeader).zh_claim_txg = 0 ∧
     chainHeadHole (⟨0, 0, 0, 0, [some ⟨1, 0, [⟨9, 40, 3, 1⟩]⟩, none]⟩ :
       ZilHeader).zh_log = false) ∧
    ((zil_claim ⟨0, 0, 0, 0, [some ⟨1, 0, [⟨9, 40, 3, 1⟩]⟩, none]⟩ (fun _ => 0)
        (fun _ => 0) 4).zh_claim_txg = 4 ∧
     (zil_claim ⟨0, 0, 0, 0, [some ⟨1, 0, [⟨9, 40, 3, 1⟩]⟩, none]⟩ (fun _ => 0)
        (fun _ => 0) 4).zh_claim_blk_seq =
       (zil_parse ⟨0, 0, 0, 0, [some ⟨1, 0, [⟨9, 40, 3, 1⟩]⟩, none]⟩ (fun _ => 0)
        (fun _ => 0)).max_blk_seq ∧
     (zil_claim ⟨0, 0, 0, 0, [some ⟨1, 0, [⟨9, 40, 3, 1⟩]⟩, none]⟩ (fun _ => 0)
        (fun _ => 0) 4).zh_claim_lr_seq =
       (zil_parse ⟨0, 0, 0, 0, [some ⟨1, 0, [⟨9, 40, 3, 1⟩]⟩, none]⟩ (fun _ => 0)
        (fun _ => 0)).max_lr_seq ∧
     (zil_claim ⟨0, 0, 0, 0, [some ⟨1, 0, [⟨9, 40, 3, 1⟩]⟩, none]⟩ (fun _ => 0)
        (fun _ => 0) 4).zh_flags.testBit 1 = true) :=
  ⟨⟨rfl, rfl⟩,
   (zil_c3_claim_stamp_amended ⟨0, 0, 0, 0, [some ⟨1, 0, [⟨9, 40, 3, 1⟩]⟩, none]⟩
      (fun _ => 0) (fun _ => 0) 4 rfl rfl).1,
   (zil_c3_claim_stamp_amended ⟨0, 0, 0, 0, [some ⟨1, 0, [⟨9, 40, 3, 1⟩]⟩, none]⟩
      (fun _ => 0) (fun _ => 0) 4 rfl rfl).2.1,
   (zil_c3_claim_stamp_amended ⟨0, 0, 0, 0, [some ⟨1, 0, [⟨9, 40, 3, 1⟩]⟩, none]⟩
      (fun _ => 0) (fun _ => 0) 4 rfl rfl).2.2.1,
   (zil_c3_claim_stamp_amended ⟨0, 0, 0, 0, [some ⟨1, 0, [⟨9, 40, 3, 1⟩]⟩, none]⟩
      (fun _ => 0) (fun _ => 0) 4 rfl rfl).2.2.2.1⟩

/-! ## C4: the parser's visit order -/

theorem zil_parse_records_benign (pl : LogRecord → Nat) (cls : Nat)
    (hpl : ∀ r, pl r = 0) :
    ∀ (rs : List LogRecord) (ml cnt ml' : Nat),
      (∀ r ∈ rs, sizeof_lr_t ≤ r.lrc_reclen) →
      recSeqsChainRecs cls ml rs = some ml' →
      zil_parse_records pl cls ml cnt rs = ⟨false, 0, ml', cnt + rs.length, rs⟩ := by
  intro rs
  induction rs with
  | nil =>
      intro ml cnt ml' _ hseq
      unfold recSeqsChainRecs at hseq
      injection hseq with h
      rw [← h]
      rfl
  | cons r rest ih =>
      intro ml cnt ml' hrc hseq
      unfold recSeqsChainRecs at hseq
      by_cases hcond : ml < r.lrc_seq ∧ r.lrc_seq ≤ cls
      · rw [if_pos hcond] at hseq
        have hrec := hrc r (List.mem_cons_self r rest)
        have hrest : ∀ x ∈ rest, sizeof_lr_t ≤ x.lrc_reclen :=
          fun x hx => hrc x (List.mem_cons_of_mem r hx)
        have hih := ih r.lrc_seq (cnt + 1) ml' hrest hseq
        have hrem : ¬ (r.lrc_reclen + sumReclens rest < sizeof_lr_t) := by omega
        have hbad : ¬ (r.lrc_reclen < sizeof_lr_t ∨
            r.lrc_reclen + sumReclens rest < r.lrc_reclen) := by omega
        have hsq : ¬ (cls < r.lrc_seq) := not_lt.mpr hcond.2
        have hstep : zil_parse_records pl cls ml cnt (r :: rest) =
            { zil_parse_records pl cls r.lrc_seq (cnt + 1) rest with
              dispatched :=
                r :: (zil_parse_records pl cls r.lrc_seq (cnt + 1) rest).dispatched } := by
          simp only [zil_parse_records]
          rw [if_neg hrem, if_neg hbad, if_neg hsq, hpl r]
          rw [if_neg (by simp)]
        rw [hstep, hih]
        have harith : cnt + 1 + rest.length = cnt + (r :: rest).length := by
          simp [List.length_cons]; omega
        rw [show ({ (⟨false, 0, ml', cnt + 1 + rest.length, rest⟩ : RecWalk) with
            dispatched := r :: rest } : RecWalk) =
            (⟨false, 0, ml', cnt + 1 + rest.length, r :: rest⟩ : RecWalk) from rfl]
        rw [harith]
      · rw [if_neg hcond] at hseq
        exact Option.noConfusion hseq

theorem zil_parse_blocks_benign (pb : LogBlock → Nat) (pl : LogRecord → Nat)
    (cbs cls : Nat) (hpb : ∀ b, pb b = 0) (hpl : ∀ r, pl r = 0) :
    ∀ (chain : List (Option LogBlock)) (mb ml bcnt lcnt : Nat),
      chainReadsOk chain = true →
      chainReclensOk chain = true →
      chainBlkSeqsMono chain = true →
      chainRecSeqsOk cls ml chain = true →
      (zil_parse_blocks pb pl cbs cls mb ml bcnt lcnt chain).error = 0 ∧
      (zil_parse_blocks pb pl cbs cls mb ml bcnt lcnt chain).visited =
        claimedChainPart cbs chain ∧
      (zil_parse_blocks pb pl cbs cls mb ml bcnt lcnt chain).dispatched =
        blocksRecords (claimedChainPart cbs chain) := by
  intro chain
  induction chain with
  | nil =>
      intro mb ml bcnt lcnt _ _ _ _
      exact ⟨rfl, rfl, rfl⟩
  | cons ob rest ih =>
      intro mb ml bcnt lcnt hread hrecl hmono hseq
      cases ob with
      | none => exact ⟨rfl, rfl, rfl⟩
      | some b =>
          have hread' : b.read_error = 0 ∧ chainReadsOk rest = true := by
            have h : ((b.read_error == 0) && chainReadsOk rest) = true := hread
            simpa only [Bool.and_eq_true, beq_iff_eq] using h
          have hrecl' : (∀ r ∈ b.records, sizeof_lr_t ≤ r.lrc_reclen) ∧
              chainReclensOk rest = true := by
            have h : (b.records.all (fun r => sizeof_lr_t ≤ r.lrc_reclen) &&
                chainReclensOk rest) = true := hrecl
            simpa only [Bool.and_eq_true, List.all_eq_true, decide_eq_true_eq] using h
          have hmr : chainBlkSeqsMono rest = true := by
            cases rest with
            | nil => rfl
            | cons ob' rest' =>
                cases ob' with
                | none => exact hmono
                | some b' =>
                    have hm : ((decide (b.blk_seq < b'.blk_seq)) &&
                        chainBlkSeqsMono (some b' :: rest')) = true := hmono
                    simp only [Bool.and_eq_true, decide_eq_true_eq] at hm
                    exact hm.2
          cases hrs : recSeqsChainRecs cls ml b.records with
          | none =>
              exfalso
              have hfalse : chainRecSeqsOk cls ml (some b :: rest) = false := by
                simp only [chainRecSeqsOk, hrs]
              rw [hfalse] at hseq
              exact Bool.false_ne_true hseq
          | some last' =>
              have hseqr : chainRecSeqsOk cls last' rest = true := by
                have heq : chainRecSeqsOk cls ml (some b :: rest) =
                    chainRecSeqsOk cls last' rest := by
                  simp only [chainRecSeqsOk, hrs]
                rw [← heq]
                exact hseq
              by_cases hle : cbs < b.blk_seq
              · have h1 : zil_parse_blocks pb pl cbs cls mb ml bcnt lcnt
                    (some b :: rest) = ⟨0, mb, ml, bcnt, lcnt, [], []⟩ := by
                  simp only [zil_parse_blocks]
                  rw [if_pos hle]
                have h2 : claimedChainPart cbs (some b :: rest) = [] := by
                  simp only [claimedChainPart]
                  rw [if_neg (by omega)]
                rw [h1, h2]
                exact ⟨rfl, rfl, rfl⟩
              · have hble : b.blk_seq ≤ cbs := not_lt.mp hle
                have hcp : claimedChainPart cbs (some b :: rest) =
                    b :: claimedChainPart cbs rest := by
                  simp only [claimedChainPart]
                  rw [if_pos hble]
                by_cases hbrk : ml = cls ∧ b.blk_seq = cbs
                · have h1 : zil_parse_blocks pb pl cbs cls mb ml bcnt lcnt
                      (some b :: rest) = ⟨0, b.blk_seq, ml, bcnt + 1, lcnt, [b], []⟩ := by
                    simp only [zil_parse_blocks]
                    rw [if_neg hle, hpb b]
                    rw [if_neg (by simp)]
                    rw [if_pos hbrk]
                  have hrecnil : b.records = [] := by
                    cases hb : b.records with
                    | nil => rfl
                    | cons r rs =>
                        exfalso
                        rw [hb] at hrs
                        unfold recSeqsChainRecs at hrs
                        by_cases hc : ml < r.lrc_seq ∧ r.lrc_seq ≤ cls
                        · obtain ⟨hml, hcls⟩ := hc
                          obtain ⟨hmleq, _⟩ := hbrk
                          omega
                        · rw [if_neg hc] at hrs
                          exact Option.noConfusion hrs
                  have hcpr : claimedChainPart cbs rest = [] := by
                    cases rest with
                    | nil => rfl
                    | cons ob' rest' =>
                        cases ob' with
                        | none => rfl
                        | some b' =>
                            have hm : ((decide (b.blk_seq < b'.blk_seq)) &&
                                chainBlkSeqsMono (some b' :: rest')) = true := hmono
                            simp only [Bool.and_eq_true, decide_eq_true_eq] at hm
                            simp only [claimedChainPart]
                            rw [if_neg (by obtain ⟨_, h2⟩ := hbrk; omega)]
                  rw [h1, hcp, hcpr]
                  refine ⟨rfl, rfl, ?_⟩
                  simp [blocksRecords, hrecnil]
                · obtain ⟨hr0, hreadr⟩ := hread'
                  obtain ⟨hrl, hreclr⟩ := hrecl'
                  have hw := zil_parse_records_benign pl cls hpl b.records ml lcnt last'
                    hrl hrs
                  obtain ⟨ie, iv, idp⟩ := ih b.blk_seq last' (bcnt + 1)
                    (lcnt + b.records.length) hreadr hreclr hmr hseqr
                  have h1 : zil_parse_blocks pb pl cbs cls mb ml bcnt lcnt
                      (some b :: rest) =
                      { zil_parse_blocks pb pl cbs cls b.blk_seq last' (bcnt + 1)
                          (lcnt + b.records.length) rest with
                        visited := b :: (zil_parse_blocks pb pl cbs cls b.blk_seq last'
                          (bcnt + 1) (lcnt + b.records.length) rest).visited,
                        dispatched := b.records ++ (zil_parse_blocks pb pl cbs cls
                          b.blk_seq last' (bcnt + 1)
                          (lcnt + b.records.length) rest).dispatched } := by
                    simp only [zil_parse_blocks]
                    rw [if_neg hle, hpb b]
                    rw [if_neg (by simp)]
                    rw [if_neg hbrk, hr0]
                    rw [if_neg (by simp)]
                    rw [hw]
                    rfl
                  rw [h1, hcp]
                  refine ⟨ie, ?_, ?_⟩
                  · exact congrArg (List.cons b) iv
                  · rw [show blocksRecords (b :: claimedChainPart cbs rest) =
                        b.records ++ blocksRecords (claimedChainPart cbs rest) from rfl]
                    exact congrArg (b.records ++ ·) idp

theorem zil_parse_records_dispatch_bound (pl : LogRecord → Nat) (cls : Nat) :
    ∀ (rs : List LogRecord) (ml cnt : Nat),
      ∀ r ∈ (zil_parse_records pl cls ml cnt rs).dispatched,
        r.lrc_seq ≤ cls ∧ sizeof_lr_t ≤ r.lrc_reclen := by
  intro rs
  induction rs with
  | nil => intro ml cnt r hr; simp [zil_parse_records] at hr
  | cons x rest ih =>
      intro ml cnt r hr
      simp only [zil_parse_records] at hr
      split at hr
      next => simp at hr
      next h1 =>
        split at hr
        next => simp at hr
        next h2 =>
          split at hr
          next => simp at hr
          next h3 =>
            split at hr
            next => simp at hr
            next h4 =>
              rcases List.mem_cons.mp hr with h | h
              · rw [h]
                push_neg at h2
                exact ⟨not_lt.mp h3, h2.1⟩
              · exact ih x.lrc_seq (cnt + 1) r h

theorem zil_parse_blocks_dispatch_bound (pb : LogBlock → Nat) (pl : LogRecord → Nat)
    (cbs cls : Nat) :
    ∀ (chain : List (Option LogBlock)) (mb ml bcnt lcnt : Nat),
      ∀ r ∈ (zil_parse_blocks pb pl cbs cls mb ml bcnt lcnt chain).dispatched,
        r.lrc_seq ≤ cls ∧ sizeof_lr_t ≤ r.lrc_reclen := by
  intro chain
  induction chain with
  | nil => intro mb ml bcnt lcnt r hr; simp [zil_parse_blocks] at hr
  | cons ob rest ih =>
      intro mb ml bcnt lcnt r hr
      cases ob with
      | none => simp [zil_parse_blocks] at hr
      | some b =>
          simp only [zil_parse_blocks] at hr
          split at hr
          next => simp at hr
          next h1 =>
            split at hr
            next => simp at hr
            next h2 =>
              split at hr
              next => simp at hr
              next h3 =>
                split at hr
                next => simp at hr
                next h4 =>
                  split at hr
                  next hstop =>
                    exact zil_parse_records_dispatch_bound pl cls b.records ml lcnt r hr
                  next hnstop =>
                    rcases List.mem_append.mp hr with h | h
                    · exact zil_parse_records_dispatch_bound pl cls b.records ml lcnt r h
                    · exact ih b.blk_seq _ (bcnt + 1) _ r h

theorem claimedChainPart_seq_bound (cbs : Nat) :
    ∀ (chain : List (Option LogBlock)), ∀ b ∈ claimedChainPart cbs chain,
      b.blk_seq ≤ cbs := by
  intro chain
  induction chain with
  | nil => intro b hb; simp [claimedChainPart] at hb
  | cons ob rest ih =>
      intro b hb
      cases ob with
      | none => simp [claimedChainPart] at hb
      | some b' =>
          simp only [claimedChainPart] at hb
          split at hb
          next h =>
            rcases List.mem_cons.mp hb with h1 | h1
            · rw [h1]; exact h
            · exact ih b h1
          next => simp at hb

/-- C4: on a well-formed chain (reads succeed, record headers are at
least sizeof lr_t, block sequence numbers strictly increase along the
chain, record sequence numbers strictly increase and stay within the
claimed maximum) and with visitors that succeed, zil_parse visits
exactly the blocks of the chain in chain order up to the first hole or
the first block whose sequence number exceeds the claimed maximum, and
dispatches exactly those blocks' records in order, returning success;
and on any input, every visited block's sequence number is within the
claimed block maximum, and every dispatched record passed the reclen
bounds check and has a sequence number within the claimed record
maximum. -/
theorem zil_c4_parse_visit_order (zh : ZilHeader) (pb : LogBlock → Nat)
    (pl : LogRecord → Nat)
    (hpb : ∀ b, pb b = 0) (hpl : ∀ r, pl r = 0)
    (hread : chainReadsOk zh.zh_log = true)
    (hrecl : chainReclensOk zh.zh_log = true)
    (hmono : chainBlkSeqsMono zh.zh_log = true)
    (hseq : chainRecSeqsOk (zilParseClaimLrSeq zh) 0 zh.zh_log = true) :
    (zil_parse zh pb pl).error = 0 ∧
    (zil_parse zh pb pl).visited = claimedChainPart (zilParseClaimBlkSeq zh) zh.zh_log ∧
    (zil_parse zh pb pl).dispatched =
      blocksRecords (claimedChainPart (zilParseClaimBlkSeq zh) zh.zh_log) ∧
    (∀ b ∈ (zil_parse zh pb pl).visited, b.blk_seq ≤ zilParseClaimBlkSeq zh) ∧
    (∀ r ∈ (zil_parse zh pb pl).dispatched,
      r.lrc_seq ≤ zilParseClaimLrSeq zh ∧ sizeof_lr_t ≤ r.lrc_reclen) := by
  obtain ⟨e, v, d⟩ := zil_parse_blocks_benign pb pl (zilParseClaimBlkSeq zh)
    (zilParseClaimLrSeq zh) hpb hpl zh.zh_log 0 0 0 0 hread hrecl hmono hseq
  refine ⟨e, v, d, ?_, ?_⟩
  · intro b hb
    rw [show (zil_parse zh pb pl).visited =
        claimedChainPart (zilParseClaimBlkSeq zh) zh.zh_log from v] at hb
    exact claimedChainPart_seq_bound _ zh.zh_log b hb
  · intro r hr
    exact zil_parse_blocks_dispatch_bound pb pl (zilParseClaimBlkSeq zh)
      (zilParseClaimLrSeq zh) zh.zh_log 0 0 0 0 r hr

/-- C4 witness: a claimed header whose chain has blocks with sequence
numbers 1, 2, 3 and claimed maxima 2/2: the parse succeeds, visits
blocks 1 and 2, and dispatches their records, stopping at block 3. -/
theorem zil_c4_parse_visit_order_witness :
    ((∀ b : LogBlock, (fun _ : LogBlock => 0) b = 0) ∧
     (∀ r : LogRecord, (fun _ : LogRecord => 0) r = 0) ∧
     chainReadsOk (⟨3, 2, 2, 2, [some ⟨1, 0, [⟨9, 40, 3, 1⟩]⟩,
       some ⟨2, 0, [⟨9, 48, 3, 2⟩]⟩, some ⟨3, 0, []⟩, none]⟩ : ZilHeader).zh_log = true ∧
     chainReclensOk (⟨3, 2, 2, 2, [some ⟨1, 0, [⟨9, 40, 3, 1⟩]⟩,
       some ⟨2, 0, [⟨9, 48, 3, 2⟩]⟩, some ⟨3, 0, []⟩, none]⟩ : ZilHeader).zh_log = true ∧
     chainBlkSeqsMono (⟨3, 2, 2, 2, [some ⟨1, 0, [⟨9, 40, 3, 1⟩]⟩,
       some ⟨2, 0, [⟨9, 48, 3, 2⟩]⟩, some ⟨3, 0, []⟩, none]⟩ : ZilHeader).zh_log = true ∧
     chainRecSeqsOk (zilParseClaimLrSeq ⟨3, 2, 2, 2, [some ⟨1, 0, [⟨9, 40, 3, 1⟩]⟩,
       some ⟨2, 0, [⟨9, 48, 3, 2⟩]⟩, some ⟨3, 0, []⟩, none]⟩) 0
       (⟨3, 2, 2, 2, [some ⟨1, 0, [⟨9, 40, 3, 1⟩]⟩, some ⟨2, 0, [⟨9, 48, 3, 2⟩]⟩,
        some ⟨3, 0, []⟩, none]⟩ : ZilHeader).zh_log = true) ∧
    ((zil_parse ⟨3, 2, 2, 2, [some ⟨1, 0, [⟨9, 40, 3, 1⟩]⟩, some ⟨2, 0, [⟨9, 48, 3, 2⟩]⟩,
        some ⟨3, 0, []⟩, none]⟩ (fun _ => 0) (fun _ => 0)).error = 0 ∧
     (zil_parse ⟨3, 2, 2, 2, [some ⟨1, 0, [⟨9, 40, 3, 1⟩]⟩, some ⟨2, 0, [⟨9, 48, 3, 2⟩]⟩,
        some ⟨3, 0, []⟩, none]⟩ (fun _ => 0) (fun _ => 0)).visited =
       claimedChainPart (zilParseClaimBlkSeq ⟨3, 2, 2, 2,
         [some ⟨1, 0, [⟨9, 40, 3, 1⟩]⟩, some ⟨2, 0, [⟨9, 48, 3, 2⟩]⟩,
          some ⟨3, 0, []⟩, none]⟩)
         (⟨3, 2, 2, 2, [some ⟨1, 0, [⟨9, 40, 3, 1⟩]⟩, some ⟨2, 0, [⟨9, 48, 3, 2⟩]⟩,
          some ⟨3, 0, []⟩, none]⟩ : ZilHeader).zh_log ∧
     (zil_parse ⟨3, 2, 2, 2, [some ⟨1, 0, [⟨9, 40, 3, 1⟩]⟩, some ⟨2, 0, [⟨9, 48, 3, 2⟩]⟩,
        some ⟨3, 0, []⟩, none]⟩ (fun _ => 0) (fun _ => 0)).dispatched =
       blocksRecords (claimedChainPart (zilParseClaimBlkSeq ⟨3, 2, 2, 2,
         [some ⟨1, 0, [⟨9, 40, 3, 1⟩]⟩, some ⟨2, 0, [⟨9, 48, 3, 2⟩]⟩,
          some ⟨3, 0, []⟩, none]⟩)
         (⟨3, 2, 2, 2, [some ⟨1, 0, [⟨9, 40, 3, 1⟩]⟩, some ⟨2, 0, [⟨9, 48, 3, 2⟩]⟩,
          some ⟨3, 0, []⟩, none]⟩ : ZilHeader).zh_log)) :=
  ⟨⟨fun _ => rfl, fun _ => rfl, by decide, by decide, by decide, by decide⟩,
   (zil_c4_parse_visit_order ⟨3, 2, 2, 2, [some ⟨1, 0, [⟨9, 40, 3, 1⟩]⟩,
      some ⟨2, 0, [⟨9, 48, 3, 2⟩]⟩, some ⟨3, 0, []⟩, none]⟩ (fun _ => 0) (fun _ => 0)
      (fun _ => rfl) (fun _ => rfl) (by decide) (by decide) (by decide) (by decide)).1,
   (zil_c4_parse_visit_order ⟨3, 2, 2, 2, [some ⟨1, 0, [⟨9, 40, 3, 1⟩]⟩,
      some ⟨2, 0, [⟨9, 48, 3, 2⟩]⟩, some ⟨3, 0, []⟩, none]⟩ (fun _ => 0) (fun _ => 0)
      (fun _ => rfl) (fun _ => rfl) (by decide) (by decide) (by decide) (by decide)).2.1,
   (zil_c4_parse_visit_order ⟨3, 2, 2, 2, [some ⟨1, 0, [⟨9, 40, 3, 1⟩]⟩,
      some ⟨2, 0, [⟨9, 48, 3, 2⟩]⟩, some ⟨3, 0, []⟩, none]⟩ (fun _ => 0) (fun _ => 0)
      (fun _ => rfl) (fun _ => rfl) (by decide) (by decide) (by decide) (by decide)).2.2.1⟩
